import Mathlib

/-!
# Verification of the e-okul grade system core (src/main.py)

Shallow embedding of the data model, store operations, report rendering and
JSON persistence of the grade-keeping core in `src/main.py`.

Modelling conventions:
* Python `float` scores are modelled as `ℚ` (exact rationals); every binary
  float is a rational with a power-of-two denominator, so all values the
  program actually manipulates are covered.
* Python `Optional[x]` is `Option x`; Python `dict` (which preserves
  insertion order) is an ordered association list `List (String × v)`.
* Exceptions raised by the code (`TypeError` from `NotKaydi(**d)` on a dict
  missing the mandatory `ders_kodu` key, `AttributeError` from calling
  `.ortalama()` on a plain dict) are modelled with `Except PyError`.
-/

/-- Python `AttributeError` / `TypeError`, the two exceptions the report
rendering path of `src/main.py` can raise. -/
inductive PyError where
  | typeError
  | attributeError
deriving Repr, DecidableEq

/-- Ordered-dict lookup, `d.get(k)` / `k in d` on a Python `dict`. -/
def dictLookup {α : Type} (l : List (String × α)) (k : String) : Option α :=
  match l with
  | [] => none
  | (k2, v) :: rest => if k2 = k then some v else dictLookup rest k

/-- Ordered-dict update `d[k] = v`: an existing key keeps its position,
a new key is appended at the end (Python 3.7+ dict semantics). -/
def dictInsert {α : Type} (k : String) (v : α) : List (String × α) → List (String × α)
  | [] => [(k, v)]
  | (k2, v2) :: rest => if k2 = k then (k, v) :: rest else (k2, v2) :: dictInsert k v rest

/-- The `Ders` dataclass (src/main.py lines 52-56).  `asdict(Ders ...)`
always materialises all three keys, so the stored dict form coincides with
the dataclass and a single structure serves for both. -/
structure Ders where
  kod : String
  ad : String
  kredi : Int
deriving Repr, DecidableEq

/-- The `NotKaydi` dataclass (src/main.py lines 58-63): a mandatory course
code and three optional scores. -/
structure NotKaydi where
  ders_kodu : String
  sinav1 : Option ℚ := none
  sinav2 : Option ℚ := none
  proje : Option ℚ := none
deriving Repr, DecidableEq

/-- The local list `puanlar` of `NotKaydi.ortalama` (src/main.py line 66):
the scores that are not `None`, in field order. -/
def NotKaydi.puanlar (nk : NotKaydi) : List ℚ :=
  [nk.sinav1, nk.sinav2, nk.proje].filterMap id

/-- `NotKaydi.ortalama` (src/main.py lines 65-67): arithmetic mean of the
scores that are not `None`, or `None` when the list of present scores is
empty (`statistics.mean` is the exact arithmetic mean `sum / len`). -/
def NotKaydi.ortalama (nk : NotKaydi) : Option ℚ :=
  if nk.puanlar.isEmpty then none else some (nk.puanlar.sum / nk.puanlar.length)

/-- The threshold chain of `NotKaydi.harf_notu` (src/main.py lines 73-88),
factored out as the pure band function on a defined average. -/
def harfOfOrt (ort : ℚ) : String :=
  if ort ≥ 90 then "AA"
  else if ort ≥ 85 then "BA"
  else if ort ≥ 80 then "BB"
  else if ort ≥ 70 then "CB"
  else if ort ≥ 60 then "CC"
  else if ort ≥ 50 then "DC"
  else if ort ≥ 40 then "DD"
  else "FF"

/-- `NotKaydi.harf_notu` (src/main.py lines 69-88): `None` when the average
is undefined, otherwise the letter band of the average. -/
def NotKaydi.harf_notu (nk : NotKaydi) : Option String :=
  match nk.ortalama with
  | none => none
  | some ort => some (harfOfOrt ort)

/-- The `Ogrenci` dataclass (src/main.py lines 90-95) in its typed form:
`notlar` maps course codes to `NotKaydi` records. -/
structure Ogrenci where
  no : String
  ad : String
  sinif : String
  notlar : List (String × NotKaydi) := []
deriving Repr, DecidableEq

/-- The local list `ortalamalar` of `Ogrenci.genel_ortalama` (src/main.py
line 98): the defined per-record averages, in record order. -/
def Ogrenci.ortalamalar (og : Ogrenci) : List ℚ :=
  (og.notlar.map fun p => p.2.ortalama).filterMap id

/-- `Ogrenci.genel_ortalama` (src/main.py lines 97-99): arithmetic mean of
the defined per-record averages, `None` when no record has one. -/
def Ogrenci.genel_ortalama (og : Ogrenci) : Option ℚ :=
  if og.ortalamalar.isEmpty then none
  else some (og.ortalamalar.sum / og.ortalamalar.length)

-- Small evaluation lemmas for `List.filterMap id` on literal score lists.

theorem filterMap_id_nil {α : Type} : List.filterMap id ([] : List (Option α)) = [] := rfl

theorem filterMap_id_cons_some {α : Type} (a : α) (l : List (Option α)) :
    List.filterMap id (some a :: l) = a :: List.filterMap id l := rfl

theorem filterMap_id_cons_none {α : Type} (l : List (Option α)) :
    List.filterMap id (none :: l) = List.filterMap id l := rfl

-- ---------------------------------------------------------------------
-- Claim C2: letter-grade bands
-- ---------------------------------------------------------------------

/-- Band characterisation of `harfOfOrt`, one iff per letter. -/
theorem harfOfOrt_bands (a : ℚ) :
    (harfOfOrt a = "AA" ↔ 90 ≤ a) ∧
    (harfOfOrt a = "BA" ↔ 85 ≤ a ∧ a < 90) ∧
    (harfOfOrt a = "BB" ↔ 80 ≤ a ∧ a < 85) ∧
    (harfOfOrt a = "CB" ↔ 70 ≤ a ∧ a < 80) ∧
    (harfOfOrt a = "CC" ↔ 60 ≤ a ∧ a < 70) ∧
    (harfOfOrt a = "DC" ↔ 50 ≤ a ∧ a < 60) ∧
    (harfOfOrt a = "DD" ↔ 40 ≤ a ∧ a < 50) ∧
    (harfOfOrt a = "FF" ↔ a < 40) := by
  unfold harfOfOrt
  split_ifs with h1 h2 h3 h4 h5 h6 h7 <;>
    push_neg at * <;>
    refine ⟨?_, ?_, ?_, ?_, ?_, ?_, ?_, ?_⟩ <;>
    constructor <;>
    intro h <;>
    (try obtain ⟨ha, hb⟩ := h) <;>
    first
      | rfl
      | linarith
      | (exact absurd h (by decide))
      | (constructor <;> linarith)

/-- C2: the letter-grade function is total and deterministic with bands
inclusive on the lower bound: for a record whose average is defined and
equals `a`, the letter is "AA" iff `a ≥ 90`, "BA" iff `85 ≤ a < 90`, ...,
"FF" iff `a < 40`; moreover `85 → "BA"`, `84.999 → "BB"`, `39.999 → "FF"`
and `90 → "AA"`. -/
theorem claim_C2_letter_bands (nk : NotKaydi) (a : ℚ) (h : nk.ortalama = some a) :
    ((nk.harf_notu = some "AA" ↔ 90 ≤ a) ∧
     (nk.harf_notu = some "BA" ↔ 85 ≤ a ∧ a < 90) ∧
     (nk.harf_notu = some "BB" ↔ 80 ≤ a ∧ a < 85) ∧
     (nk.harf_notu = some "CB" ↔ 70 ≤ a ∧ a < 80) ∧
     (nk.harf_notu = some "CC" ↔ 60 ≤ a ∧ a < 70) ∧
     (nk.harf_notu = some "DC" ↔ 50 ≤ a ∧ a < 60) ∧
     (nk.harf_notu = some "DD" ↔ 40 ≤ a ∧ a < 50) ∧
     (nk.harf_notu = some "FF" ↔ a < 40)) ∧
    harfOfOrt 85 = "BA" ∧ harfOfOrt (84999/1000) = "BB" ∧
    harfOfOrt (39999/1000) = "FF" ∧ harfOfOrt 90 = "AA" := by
  have hh : nk.harf_notu = some (harfOfOrt a) := by
    unfold NotKaydi.harf_notu; rw [h]
  obtain ⟨b1, b2, b3, b4, b5, b6, b7, b8⟩ := harfOfOrt_bands a
  refine ⟨⟨?_, ?_, ?_, ?_, ?_, ?_, ?_, ?_⟩, ?_, ?_, ?_, ?_⟩
  · rw [hh, Option.some_inj]; exact b1
  · rw [hh, Option.some_inj]; exact b2
  · rw [hh, Option.some_inj]; exact b3
  · rw [hh, Option.some_inj]; exact b4
  · rw [hh, Option.some_inj]; exact b5
  · rw [hh, Option.some_inj]; exact b6
  · rw [hh, Option.some_inj]; exact b7
  · rw [hh, Option.some_inj]; exact b8
  · exact ((harfOfOrt_bands 85).2.1).mpr (by norm_num)
  · exact ((harfOfOrt_bands (84999/1000)).2.2.1).mpr (by norm_num)
  · exact ((harfOfOrt_bands (39999/1000)).2.2.2.2.2.2.2).mpr (by norm_num)
  · exact ((harfOfOrt_bands 90).1).mpr (by norm_num)

/-- Witness for C2 at a concrete record: a single exam of 85 gives letter
"BA". -/
theorem claim_C2_letter_bands_witness :
    (NotKaydi.mk "MAT101" (some 85) none none).harf_notu = some "BA" :=
  ((claim_C2_letter_bands ⟨"MAT101", some 85, none, none⟩ 85
      (by norm_num [NotKaydi.ortalama, NotKaydi.puanlar, filterMap_id_cons_some, filterMap_id_cons_none, filterMap_id_nil])).1.2.1).mpr
    ⟨by norm_num, by norm_num⟩

-- ---------------------------------------------------------------------
-- Claim C3: averages
-- ---------------------------------------------------------------------

/-- C3: the per-record average is the arithmetic mean of exactly the
present scores (all eight presence patterns), undefined when all three are
absent; the overall average is the mean of the defined per-record averages
and undefined when there is none; two records averaging `x` and `y` give
overall average `(x + y) / 2`; and in full generality, for every student
the overall average equals the arithmetic mean of the list of averages of
exactly those records whose average is defined — any number of records,
defined and undefined mixed — and is undefined when that list is empty. -/
theorem claim_C3_averages :
    (∀ (k : String) (a b c : ℚ),
        (NotKaydi.mk k (some a) (some b) (some c)).ortalama = some ((a + b + c) / 3)) ∧
    (∀ (k : String) (a b : ℚ),
        (NotKaydi.mk k (some a) (some b) none).ortalama = some ((a + b) / 2)) ∧
    (∀ (k : String) (a c : ℚ),
        (NotKaydi.mk k (some a) none (some c)).ortalama = some ((a + c) / 2)) ∧
    (∀ (k : String) (b c : ℚ),
        (NotKaydi.mk k none (some b) (some c)).ortalama = some ((b + c) / 2)) ∧
    (∀ (k : String) (a : ℚ), (NotKaydi.mk k (some a) none none).ortalama = some a) ∧
    (∀ (k : String) (b : ℚ), (NotKaydi.mk k none (some b) none).ortalama = some b) ∧
    (∀ (k : String) (c : ℚ), (NotKaydi.mk k none none (some c)).ortalama = some c) ∧
    (∀ k : String, (NotKaydi.mk k none none none).ortalama = none) ∧
    (∀ og : Ogrenci, og.genel_ortalama = none ↔ ∀ p ∈ og.notlar, p.2.ortalama = none) ∧
    (∀ (og : Ogrenci) (k1 k2 : String) (nk1 nk2 : NotKaydi) (x y : ℚ),
        og.notlar = [(k1, nk1), (k2, nk2)] → nk1.ortalama = some x →
        nk2.ortalama = some y → og.genel_ortalama = some ((x + y) / 2)) ∧
    (∀ og : Ogrenci,
        og.genel_ortalama =
          if (og.notlar.filterMap fun p => p.2.ortalama) = [] then none
          else some ((og.notlar.filterMap fun p => p.2.ortalama).sum /
            (og.notlar.filterMap fun p => p.2.ortalama).length)) := by
  refine ⟨?_, ?_, ?_, ?_, ?_, ?_, ?_, ?_, ?_, ?_, ?_⟩
  · intro k a b c
    norm_num [NotKaydi.ortalama, NotKaydi.puanlar, filterMap_id_cons_some, filterMap_id_cons_none, filterMap_id_nil]
    ring_nf
  · intro k a b
    norm_num [NotKaydi.ortalama, NotKaydi.puanlar, filterMap_id_cons_some, filterMap_id_cons_none, filterMap_id_nil]
  · intro k a c
    norm_num [NotKaydi.ortalama, NotKaydi.puanlar, filterMap_id_cons_some, filterMap_id_cons_none, filterMap_id_nil]
  · intro k b c
    norm_num [NotKaydi.ortalama, NotKaydi.puanlar, filterMap_id_cons_some, filterMap_id_cons_none, filterMap_id_nil]
  · intro k a; norm_num [NotKaydi.ortalama, NotKaydi.puanlar, filterMap_id_cons_some, filterMap_id_cons_none, filterMap_id_nil]
  · intro k b; norm_num [NotKaydi.ortalama, NotKaydi.puanlar, filterMap_id_cons_some, filterMap_id_cons_none, filterMap_id_nil]
  · intro k c; norm_num [NotKaydi.ortalama, NotKaydi.puanlar, filterMap_id_cons_some, filterMap_id_cons_none, filterMap_id_nil]
  · intro k; norm_num [NotKaydi.ortalama, NotKaydi.puanlar, filterMap_id_cons_some, filterMap_id_cons_none, filterMap_id_nil]
  · intro og
    unfold Ogrenci.genel_ortalama
    constructor
    · intro h p hp
      by_contra hne
      have hc : ¬ og.ortalamalar.isEmpty = true := by
        rw [List.isEmpty_iff]
        unfold Ogrenci.ortalamalar
        rw [List.filterMap_eq_nil_iff]
        intro hall
        exact hne (by simpa using hall _ (List.mem_map_of_mem _ hp))
      rw [if_neg hc] at h
      exact Option.some_ne_none _ h
    · intro h
      have hc : og.ortalamalar.isEmpty = true := by
        rw [List.isEmpty_iff]
        unfold Ogrenci.ortalamalar
        rw [List.filterMap_eq_nil_iff]
        intro x hx
        obtain ⟨p, hp, rfl⟩ := List.mem_map.mp hx
        simpa using h p hp
      rw [if_pos hc]
  · intro og k1 k2 nk1 nk2 x y hn h1 h2
    unfold Ogrenci.genel_ortalama Ogrenci.ortalamalar
    rw [hn]
    norm_num [h1, h2, filterMap_id_cons_some, filterMap_id_cons_none, filterMap_id_nil]
  · intro og
    unfold Ogrenci.genel_ortalama Ogrenci.ortalamalar
    have hfm : ((og.notlar.map fun p => p.2.ortalama).filterMap id) =
        og.notlar.filterMap fun p => p.2.ortalama := by
      rw [List.filterMap_map]
      rfl
    rw [hfm]
    by_cases h : (og.notlar.filterMap fun p => p.2.ortalama) = []
    · rw [if_pos (List.isEmpty_iff.mpr h), if_pos h]
    · rw [if_neg (fun hc => h (List.isEmpty_iff.mp hc)), if_neg h]

/-- Witness for C3: a student with two records averaging 70 and 90 has
overall average 80, and a student with those two records plus a scoreless
record (undefined average) still has overall average 80 — the general law
exercised on a mixed three-record list. -/
theorem claim_C3_averages_witness :
    (Ogrenci.mk "1" "Ali" "9-A"
      [("MAT101", ⟨"MAT101", some 70, none, none⟩),
       ("FIZ101", ⟨"FIZ101", some 90, none, none⟩)]).genel_ortalama = some 80 ∧
    (Ogrenci.mk "2" "Ayse" "9-B"
      [("MAT101", ⟨"MAT101", some 70, none, none⟩),
       ("KIM101", ⟨"KIM101", none, none, none⟩),
       ("FIZ101", ⟨"FIZ101", some 90, none, none⟩)]).genel_ortalama = some 80 := by
  constructor
  · have h := claim_C3_averages.2.2.2.2.2.2.2.2.2.1
      (Ogrenci.mk "1" "Ali" "9-A"
        [("MAT101", ⟨"MAT101", some 70, none, none⟩),
         ("FIZ101", ⟨"FIZ101", some 90, none, none⟩)])
      "MAT101" "FIZ101" ⟨"MAT101", some 70, none, none⟩ ⟨"FIZ101", some 90, none, none⟩
      70 90 rfl (by norm_num [NotKaydi.ortalama, NotKaydi.puanlar, filterMap_id_cons_some, filterMap_id_cons_none, filterMap_id_nil])
      (by norm_num [NotKaydi.ortalama, NotKaydi.puanlar, filterMap_id_cons_some, filterMap_id_cons_none, filterMap_id_nil])
    norm_num at h
    exact h
  · have h := claim_C3_averages.2.2.2.2.2.2.2.2.2.2
      (Ogrenci.mk "2" "Ayse" "9-B"
        [("MAT101", ⟨"MAT101", some 70, none, none⟩),
         ("KIM101", ⟨"KIM101", none, none, none⟩),
         ("FIZ101", ⟨"FIZ101", some 90, none, none⟩)])
    norm_num [List.filterMap_cons, List.filterMap_nil, NotKaydi.ortalama,
      NotKaydi.puanlar, filterMap_id_cons_some, filterMap_id_cons_none,
      filterMap_id_nil] at h
    exact h

-- ---------------------------------------------------------------------
-- The JSON-backed store (`DataManager.data`, a raw dict tree)
-- ---------------------------------------------------------------------

/-- The stored dict form of a grade record.  `not_gir` (src/main.py lines
149-156) builds these as plain dicts, setting only the keys it was given a
value for; in particular it never sets a `"ders_kodu"` key.  Each field
models the presence/absence of the corresponding dict key. -/
structure NKDict where
  ders_kodu : Option String := none
  sinav1 : Option ℚ := none
  sinav2 : Option ℚ := none
  proje : Option ℚ := none
deriving Repr, DecidableEq

/-- `NotKaydi(**nk_dict)` (src/main.py line 171).  The dataclass has no
default for `ders_kodu`, so a dict without that key raises `TypeError`. -/
def NotKaydi.ofDict (d : NKDict) : Except PyError NotKaydi :=
  match d.ders_kodu with
  | none => .error .typeError
  | some k => .ok ⟨k, d.sinav1, d.sinav2, d.proje⟩

/-- The stored dict form of a student, as produced by
`asdict(Ogrenci(no, ad, sinif))` (src/main.py line 138) and mutated by
`not_gir`: all four keys are always present, and `notlar` maps uppercase
course codes to stored grade dicts. -/
structure OgrDict where
  no : String
  ad : String
  sinif : String
  notlar : List (String × NKDict) := []
deriving Repr, DecidableEq

/-- `self.data`: the full document, `{"ogrenciler": {...}, "dersler": {...}}`
(src/main.py lines 112-113).  `asdict(Ders ...)` always stores all three
course keys, so `Ders` doubles as the stored form of a course. -/
structure StoreData where
  ogrenciler : List (String × OgrDict) := []
  dersler : List (String × Ders) := []
deriving Repr, DecidableEq

-- ---------------------------------------------------------------------
-- Decimal rendering (Python `repr(float)` / `str` on scores)
-- ---------------------------------------------------------------------

/-- The decimal digit character for `d < 10`. -/
def digChar (d : Nat) : Char := Char.ofNat (48 + d)

/-- Big-endian decimal digit values of `n` (`[0]` for zero). -/
def bigDigits (n : Nat) : List Nat :=
  if n = 0 then [0] else (Nat.digits 10 n).reverse

/-- Decimal digit characters of `n`, most significant first. -/
def natStr (n : Nat) : List Char := (bigDigits n).map digChar

/-- Smallest `k ≤ den` with `den ∣ 10 ^ k`, or `0` if there is none.  For
the denominator of any Python float (a power of two) such a `k` exists. -/
def decExp (den : Nat) : Nat :=
  ((List.range (den + 1)).find? fun k => 10 ^ k % den == 0).getD 0

/-- Left-pad a digit string with `'0'` to width `k`. -/
def padZeroDigits (k : Nat) (ds : List Char) : List Char :=
  List.replicate (k - ds.length) '0' ++ ds

/-- Decimal rendering of a score, modelling Python `repr(float)` (which is
also what `str` and `json.dump` use).  Python prints the shortest decimal
expansion that rounds back to the float; on the rationals with a
`10`-smooth denominator — which covers every float — that is the exact
finite decimal expansion produced here, always with at least one digit
after the point (`80.0`, `80.5`, `-2.25`). -/
def floatReprCs (q : ℚ) : List Char :=
  let sign : List Char := if q < 0 then ['-'] else []
  let k := decExp q.den
  if k = 0 then sign ++ natStr q.num.natAbs ++ ['.', '0']
  else
    let m := q.num.natAbs * (10 ^ k / q.den)
    sign ++ natStr (m / 10 ^ k) ++ ['.'] ++ padZeroDigits k (natStr (m % 10 ^ k))

/-- String form of `floatReprCs`. -/
def floatRepr (q : ℚ) : String := String.mk (floatReprCs q)

/-- Round to the nearest integer, ties to even (Python's rounding of a
value exactly representable at 2 decimals, as used by `format(x, '.2f')`). -/
def roundHalfEven (q : ℚ) : Int :=
  if Int.fract q < 1/2 then ⌊q⌋
  else if Int.fract q > 1/2 then ⌊q⌋ + 1
  else if 2 ∣ ⌊q⌋ then ⌊q⌋ else ⌊q⌋ + 1

/-- Python `format(x, '.2f')`: fixed two digits after the point. -/
def format2f (q : ℚ) : String :=
  let n := roundHalfEven (q * 100)
  String.mk ((if n < 0 then ['-'] else []) ++
    natStr (n.natAbs / 100) ++ ['.'] ++ padZeroDigits 2 (natStr (n.natAbs % 100)))

-- ---------------------------------------------------------------------
-- Report rendering (`DataManager.karne`, src/main.py lines 161-179)
-- ---------------------------------------------------------------------

/-- Python format `{s:<10}`: left-justify, pad with spaces on the right
(no truncation when longer). -/
def padRight (w : Nat) (s : String) : String :=
  s ++ String.mk (List.replicate (w - s.length) ' ')

/-- Python format `{s:>5}`: right-justify, pad with spaces on the left. -/
def padLeft (w : Nat) (s : String) : String :=
  String.mk (List.replicate (w - s.length) ' ') ++ s

/-- `x or '-'` on an optional float (src/main.py lines 173-174): `None`
and `0.0` are both falsy in Python, so both render as the dash; any other
value renders via `str(float)`. -/
def orDashQ : Option ℚ → String
  | none => "-"
  | some q => if q = 0 then "-" else floatRepr q

/-- `x or '-'` on an optional string (the letter grade, line 174): `None`
and the empty string are falsy. -/
def orDashS : Option String → String
  | none => "-"
  | some s => if s = "" then "-" else s

/-- One report row (the f-string at src/main.py lines 172-175).  Note the
average column uses `nk.ortalama() or '-'` with no precision spec: a
defined average is rendered by `str(float)`, not with two decimals. -/
def karneRow (ders_kodu : String) (nk : NotKaydi) : String :=
  padRight 10 ders_kodu ++ " " ++
  padLeft 5 (orDashQ nk.sinav1) ++ " " ++
  padLeft 5 (orDashQ nk.sinav2) ++ " " ++
  padLeft 5 (orDashQ nk.proje) ++ " " ++
  padLeft 6 (orDashQ nk.ortalama) ++ " " ++
  padLeft 5 (orDashS nk.harf_notu)

/-- The separator rule (src/main.py lines 167 and 176, 41 dashes). -/
def karneSep : String := "-----------------------------------------"

/-- The report header line (src/main.py line 166). -/
def karneHeader (ogr : OgrDict) : String :=
  "Öğrenci: " ++ ogr.ad ++ " (" ++ ogr.no ++ ")  Sınıf: " ++ ogr.sinif

/-- The column header row (src/main.py line 168). -/
def karneColHeader : String :=
  padRight 10 "Ders" ++ " " ++ padLeft 5 "S1" ++ " " ++ padLeft 5 "S2" ++ " " ++
  padLeft 5 "PR" ++ " " ++ padLeft 6 "Ort" ++ " " ++ padLeft 5 "Harf"

/-- The overall-average line (src/main.py line 178):
`f"Genel Ortalama: {genel:.2f}" if genel else "Genel Ortalama: -"`.
`if genel` is Python truthiness, so both `None` and `0.0` give the dash. -/
def genelLine (genel : Option ℚ) : String :=
  match genel with
  | none => "Genel Ortalama: -"
  | some g => if g = 0 then "Genel Ortalama: -" else "Genel Ortalama: " ++ format2f g

-- ---------------------------------------------------------------------
-- JSON serialisation (`json.dump(self.data, f, ensure_ascii=False,
-- indent=2)`, src/main.py lines 121-123)
-- ---------------------------------------------------------------------

/-- A JSON leaf of the store document: strings, ints (`kredi`) and floats
(scores).  The document contains no other leaf kinds. -/
inductive Leaf where
  | s (v : String)
  | i (v : Int)
  | f (v : ℚ)
deriving Repr, DecidableEq

/-- Lowercase hexadecimal digit for `d < 16`. -/
def hexDig (d : Nat) : Char :=
  if d < 10 then Char.ofNat (48 + d) else Char.ofNat (87 + d)

/-- JSON string escaping as `json.dump(..., ensure_ascii=False)` performs
it: only `"`,\ `\` and control characters below `0x20` are escaped; all
other characters (including non-ASCII) are emitted verbatim. -/
def escChar (c : Char) : List Char :=
  if c = '"' then ['\\', '"']
  else if c = '\\' then ['\\', '\\']
  else if c = '\n' then ['\\', 'n']
  else if c = '\t' then ['\\', 't']
  else if c = '\r' then ['\\', 'r']
  else if c = Char.ofNat 8 then ['\\', 'b']
  else if c = Char.ofNat 12 then ['\\', 'f']
  else if c.toNat < 32 then
    ['\\', 'u', '0', '0', hexDig (c.toNat / 16), hexDig (c.toNat % 16)]
  else [c]

/-- A JSON string literal, quotes included. -/
def dumpStrCs (s : String) : List Char :=
  '"' :: (s.data.map escChar).flatten ++ ['"']

/-- A JSON int literal (Python prints `-` followed by decimal digits). -/
def intCs (n : Int) : List Char :=
  (if n < 0 then ['-'] else []) ++ natStr n.natAbs

/-- `n` spaces (the `indent=2` padding). -/
def spaces (n : Nat) : List Char := List.replicate n ' '

/-- One JSON leaf value. -/
def dumpLeaf : Nat → Leaf → List Char
  | _, .s v => dumpStrCs v
  | _, .i v => intCs v
  | _, .f v => floatReprCs v

/-- The `"key": value` lines of a non-empty object at indentation `ind`,
separated by `",\n"`, exactly as `json.dump` with `indent=2` lays them
out. -/
def dumpFields {α : Type} (dv : Nat → α → List Char) (ind : Nat) :
    List (String × α) → List Char
  | [] => []
  | [(k, v)] => spaces ind ++ dumpStrCs k ++ [':', ' '] ++ dv ind v
  | (k, v) :: rest =>
      spaces ind ++ dumpStrCs k ++ [':', ' '] ++ dv ind v ++ [',', '\n'] ++
      dumpFields dv ind rest

/-- A JSON object whose opening brace sits on a line indented to `ind`:
`json.dump(..., indent=2)` prints `\x7b\x7d` for an empty dict and
otherwise one key per line at `ind + 2`, closing brace back at `ind`. -/
def dumpObjOf {α : Type} (dv : Nat → α → List Char) (ind : Nat)
    (l : List (String × α)) : List Char :=
  if l.isEmpty then ['\x7b', '\x7d']
  else '\x7b' :: '\n' :: (dumpFields dv (ind + 2) l ++ '\n' :: spaces ind ++ ['\x7d'])

/-- The key/leaf pairs of a stored grade dict, in the canonical field
order; only present fields contribute a key. -/
def nkPairs (nk : NKDict) : List (String × Leaf) :=
  (match nk.ders_kodu with | some k => [("ders_kodu", Leaf.s k)] | none => []) ++
  (match nk.sinav1 with | some v => [("sinav1", Leaf.f v)] | none => []) ++
  (match nk.sinav2 with | some v => [("sinav2", Leaf.f v)] | none => []) ++
  (match nk.proje with | some v => [("proje", Leaf.f v)] | none => [])

/-- A stored grade dict as a JSON object. -/
def dumpNK (ind : Nat) (nk : NKDict) : List Char :=
  dumpObjOf dumpLeaf ind (nkPairs nk)

/-- A stored course as a JSON object (all three keys always present). -/
def dumpDers (ind : Nat) (d : Ders) : List Char :=
  dumpObjOf dumpLeaf ind [("kod", Leaf.s d.kod), ("ad", Leaf.s d.ad), ("kredi", Leaf.i d.kredi)]

/-- A stored student as a JSON object: the three string fields followed by
the nested `notlar` object. -/
def dumpOgr (ind : Nat) (og : OgrDict) : List Char :=
  '\x7b' :: '\n' :: (
    spaces (ind + 2) ++ dumpStrCs "no" ++ [':', ' '] ++ dumpStrCs og.no ++ [',', '\n'] ++
    spaces (ind + 2) ++ dumpStrCs "ad" ++ [':', ' '] ++ dumpStrCs og.ad ++ [',', '\n'] ++
    spaces (ind + 2) ++ dumpStrCs "sinif" ++ [':', ' '] ++ dumpStrCs og.sinif ++ [',', '\n'] ++
    spaces (ind + 2) ++ dumpStrCs "notlar" ++ [':', ' '] ++ dumpObjOf dumpNK (ind + 2) og.notlar ++
    '\n' :: spaces ind ++ ['\x7d'])

/-- The serialised document: `json.dump(self.data, f, ensure_ascii=False,
indent=2)` of `{"ogrenciler": {...}, "dersler": {...}}`. -/
def dumpStoreCs (d : StoreData) : List Char :=
  '\x7b' :: '\n' :: (
    spaces 2 ++ dumpStrCs "ogrenciler" ++ [':', ' '] ++ dumpObjOf dumpOgr 2 d.ogrenciler ++ [',', '\n'] ++
    spaces 2 ++ dumpStrCs "dersler" ++ [':', ' '] ++ dumpObjOf dumpDers 2 d.dersler ++
    '\n' :: ['\x7d'])

/-- The persisted text of a document. -/
def dumpStore (d : StoreData) : String := String.mk (dumpStoreCs d)

-- ---------------------------------------------------------------------
-- `DataManager` and its operations (src/main.py lines 107-179)
-- ---------------------------------------------------------------------

/-- Python `kod.upper()` / `ders_kodu.upper()`, modelled characterwise
(ASCII case mapping; non-ASCII characters pass through unchanged). -/
def strUpper (s : String) : String := String.mk (s.data.map Char.toUpper)

/-- The manager: the in-memory document plus the persisted file content
(`none` when `veri.json` does not exist). -/
structure DataManager where
  data : StoreData
  file : Option String := none
deriving Repr, DecidableEq

/-- `_save` (src/main.py lines 121-123): rewrite the file with the JSON
serialisation of the current document. -/
def DataManager.save (m : DataManager) : DataManager :=
  { m with file := some (dumpStore m.data) }

/-- `ders_ekle` (src/main.py lines 126-132): uppercase the code, fail on a
duplicate, otherwise insert `asdict(Ders(kod, ad, kredi))` and save. -/
def DataManager.ders_ekle (m : DataManager) (kod ad : String) (kredi : Int) :
    Bool × DataManager :=
  let kodU := strUpper kod
  match dictLookup m.data.dersler kodU with
  | some _ => (false, m)
  | none =>
      (true, DataManager.save
        { m with data := { m.data with dersler := dictInsert kodU ⟨kodU, ad, kredi⟩ m.data.dersler } })

/-- `ogrenci_ekle` (src/main.py lines 135-140): fail on a duplicate id,
otherwise insert `asdict(Ogrenci(no, ad, sinif))` (empty `notlar`) and
save. -/
def DataManager.ogrenci_ekle (m : DataManager) (no ad sinif : String) :
    Bool × DataManager :=
  match dictLookup m.data.ogrenciler no with
  | some _ => (false, m)
  | none =>
      (true, DataManager.save
        { m with data := { m.data with ogrenciler := dictInsert no ⟨no, ad, sinif, []⟩ m.data.ogrenciler } })

/-- `not_gir` (src/main.py lines 143-158): check the student, then the
uppercased course; fetch the existing stored grade dict (or `{}`),
overwrite exactly the supplied fields, store it back under the uppercased
course code, save, and report success. -/
def DataManager.not_gir (m : DataManager) (no ders_kodu : String)
    (s1 s2 prj : Option ℚ) : String × DataManager :=
  match dictLookup m.data.ogrenciler no with
  | none => ("Öğrenci bulunamadı.", m)
  | some ogr =>
    match dictLookup m.data.dersler (strUpper ders_kodu) with
    | none => ("Ders bulunamadı.", m)
    | some _ =>
      let nk0 := (dictLookup ogr.notlar (strUpper ders_kodu)).getD ⟨none, none, none, none⟩
      let nk1 := match s1 with | some v => { nk0 with sinav1 := some v } | none => nk0
      let nk2 := match s2 with | some v => { nk1 with sinav2 := some v } | none => nk1
      let nk3 := match prj with | some v => { nk2 with proje := some v } | none => nk2
      let ogr2 := { ogr with notlar := dictInsert (strUpper ders_kodu) nk3 ogr.notlar }
      ("Notlar güncellendi.", DataManager.save
        { m with data := { m.data with ogrenciler := dictInsert no ogr2 m.data.ogrenciler } })

/-- `karne` (src/main.py lines 161-179).  Unknown student: `None` (modelled
`.ok none`).  Otherwise the code builds `Ogrenci(**stored_dict)` — whose
`notlar` values remain plain dicts — then for each record runs
`NotKaydi(**nk_dict)`: a stored dict without a `"ders_kodu"` key (which is
what `not_gir` always produces) raises `TypeError`.  If every record does
carry the key, the rows are built, but line 177 then calls
`ogr.genel_ortalama()`, which invokes `.ortalama()` on the dict values of
`notlar` and raises `AttributeError` as soon as `notlar` is non-empty.
Only a student with no grade records yields a report; its overall average
is that of an `Ogrenci` with empty `notlar`. -/
def DataManager.karne (m : DataManager) (no : String) :
    Except PyError (Option String) :=
  match dictLookup m.data.ogrenciler no with
  | none => .ok none
  | some ogr =>
    match ogr.notlar.mapM (fun p => (NotKaydi.ofDict p.2).map (karneRow p.1)) with
    | .error e => .error e
    | .ok rows =>
      match ogr.notlar with
      | [] => .ok (some (String.intercalate "\n"
          ([karneHeader ogr, karneSep, karneColHeader] ++ rows ++
           [karneSep, genelLine (Ogrenci.mk ogr.no ogr.ad ogr.sinif []).genel_ortalama])))
      | _ :: _ => .error .attributeError

-- ---------------------------------------------------------------------
-- Dict lemmas
-- ---------------------------------------------------------------------

theorem dictLookup_dictInsert_self {α : Type} (k : String) (v : α)
    (l : List (String × α)) : dictLookup (dictInsert k v l) k = some v := by
  induction l with
  | nil => simp [dictInsert, dictLookup]
  | cons p rest ih =>
      obtain ⟨k2, v2⟩ := p
      by_cases h : k2 = k
      · simp [dictInsert, h, dictLookup]
      · simp [dictInsert, h, dictLookup, ih]

theorem dictLookup_dictInsert_ne {α : Type} (k q : String) (hne : k ≠ q)
    (v : α) (l : List (String × α)) :
    dictLookup (dictInsert k v l) q = dictLookup l q := by
  induction l with
  | nil => simp [dictInsert, dictLookup, hne]
  | cons p rest ih =>
      obtain ⟨k2, v2⟩ := p
      by_cases h : k2 = k
      · subst h
        simp [dictInsert, dictLookup, hne]
      · simp [dictInsert, h, dictLookup, ih]

theorem dictLookup_isSome_dictInsert {α : Type} (k q : String) (v : α)
    (l : List (String × α)) (h : (dictLookup l q).isSome) :
    (dictLookup (dictInsert k v l) q).isSome := by
  by_cases hk : k = q
  · subst hk; rw [dictLookup_dictInsert_self]; rfl
  · rw [dictLookup_dictInsert_ne k q hk]; exact h

-- ---------------------------------------------------------------------
-- Claim C1: partial update of grade records
-- ---------------------------------------------------------------------

/-- C1: when student `no` and course `kodu` both exist, `not_gir` reports
success and replaces the student's stored record for the uppercased course
code with a record in which exactly the supplied fields are overwritten —
each omitted field (and the `ders_kodu` key) keeps its prior stored value,
the previously absent record defaulting to the empty dict; every other
student, every other course record of this student, and the course table
are untouched. -/
theorem claim_C1_partial_update (m : DataManager) (no kodu : String)
    (ogr : OgrDict) (s1 s2 prj : Option ℚ)
    (hs : dictLookup m.data.ogrenciler no = some ogr)
    (hd : (dictLookup m.data.dersler (strUpper kodu)).isSome) :
    (m.not_gir no kodu s1 s2 prj).1 = "Notlar güncellendi." ∧
    dictLookup (m.not_gir no kodu s1 s2 prj).2.data.ogrenciler no = some
      { ogr with notlar := (dictInsert (strUpper kodu)
          (NKDict.mk
            ((dictLookup ogr.notlar (strUpper kodu)).getD ⟨none, none, none, none⟩).ders_kodu
            (match s1 with
              | some v => some v
              | none => ((dictLookup ogr.notlar (strUpper kodu)).getD ⟨none, none, none, none⟩).sinav1)
            (match s2 with
              | some v => some v
              | none => ((dictLookup ogr.notlar (strUpper kodu)).getD ⟨none, none, none, none⟩).sinav2)
            (match prj with
              | some v => some v
              | none => ((dictLookup ogr.notlar (strUpper kodu)).getD ⟨none, none, none, none⟩).proje))
          ogr.notlar) } ∧
    (∀ no2, no2 ≠ no →
      dictLookup (m.not_gir no kodu s1 s2 prj).2.data.ogrenciler no2 =
        dictLookup m.data.ogrenciler no2) ∧
    (m.not_gir no kodu s1 s2 prj).2.data.dersler = m.data.dersler := by
  obtain ⟨d, hd2⟩ := Option.isSome_iff_exists.mp hd
  refine ⟨?_, ?_, ?_, ?_⟩
  · unfold DataManager.not_gir
    rw [hs, hd2]
  · unfold DataManager.not_gir
    rw [hs, hd2]
    cases s1 <;> cases s2 <;> cases prj <;>
      simp [DataManager.save, dictLookup_dictInsert_self]
  · intro no2 hne
    unfold DataManager.not_gir
    rw [hs, hd2]
    cases s1 <;> cases s2 <;> cases prj <;>
      simp [DataManager.save, dictLookup_dictInsert_ne no no2 (fun hx => hne hx.symm)]
  · unfold DataManager.not_gir
    rw [hs, hd2]
    cases s1 <;> cases s2 <;> cases prj <;> simp [DataManager.save]

/-- Witness for C1: an existing record `{sinav1: 80}` updated with only
`sinav2 = 90` becomes `{sinav1: 80, sinav2: 90}` — `sinav1` survives. -/
theorem claim_C1_partial_update_witness :
    ((DataManager.mk
        ⟨[("1", ⟨"1", "Ali", "9-A", [("MAT101", ⟨none, some 80, none, none⟩)]⟩)],
         [("MAT101", ⟨"MAT101", "Matematik", 1⟩)]⟩ none).not_gir
      "1" "MAT101" none (some 90) none).1 = "Notlar güncellendi." ∧
    dictLookup ((DataManager.mk
        ⟨[("1", ⟨"1", "Ali", "9-A", [("MAT101", ⟨none, some 80, none, none⟩)]⟩)],
         [("MAT101", ⟨"MAT101", "Matematik", 1⟩)]⟩ none).not_gir
      "1" "MAT101" none (some 90) none).2.data.ogrenciler "1" = some
      ⟨"1", "Ali", "9-A", [("MAT101", ⟨none, some 80, some 90, none⟩)]⟩ := by
  have h := claim_C1_partial_update
    (DataManager.mk
      ⟨[("1", ⟨"1", "Ali", "9-A", [("MAT101", ⟨none, some 80, none, none⟩)]⟩)],
       [("MAT101", ⟨"MAT101", "Matematik", 1⟩)]⟩ none)
    "1" "MAT101" ⟨"1", "Ali", "9-A", [("MAT101", ⟨none, some 80, none, none⟩)]⟩
    none (some 90) none (by rfl) (by rfl)
  refine ⟨h.1, ?_⟩
  rw [h.2.1]
  rfl

-- ---------------------------------------------------------------------
-- Claim C5: duplicate keys are rejected, across any later operations
-- ---------------------------------------------------------------------

/-- The operations an external caller can run against the store. -/
inductive Op where
  | dersEkle (kod ad : String) (kredi : Int)
  | ogrenciEkle (no ad sinif : String)
  | notGir (no kodu : String) (s1 s2 prj : Option ℚ)
  | karneOp (no : String)

/-- State effect of one operation (`karne` only reads). -/
def applyOp (m : DataManager) : Op → DataManager
  | .dersEkle kod ad kredi => (m.ders_ekle kod ad kredi).2
  | .ogrenciEkle no ad sinif => (m.ogrenci_ekle no ad sinif).2
  | .notGir no kodu s1 s2 prj => (m.not_gir no kodu s1 s2 prj).2
  | .karneOp _ => m

/-- No operation ever removes a course key. -/
theorem ders_isSome_applyOp (m : DataManager) (op : Op) (k : String)
    (h : (dictLookup m.data.dersler k).isSome) :
    (dictLookup (applyOp m op).data.dersler k).isSome := by
  cases op with
  | dersEkle kod ad kredi =>
      cases hl : dictLookup m.data.dersler (strUpper kod) with
      | some d => simp [applyOp, DataManager.ders_ekle, hl]; exact h
      | none =>
          simp [applyOp, DataManager.ders_ekle, hl, DataManager.save]
          exact dictLookup_isSome_dictInsert _ _ _ _ h
  | ogrenciEkle no ad sinif =>
      cases hl : dictLookup m.data.ogrenciler no with
      | some d => simp [applyOp, DataManager.ogrenci_ekle, hl]; exact h
      | none => simp [applyOp, DataManager.ogrenci_ekle, hl, DataManager.save]; exact h
  | notGir no kodu s1 s2 prj =>
      cases hl : dictLookup m.data.ogrenciler no with
      | none => simp [applyOp, DataManager.not_gir, hl]; exact h
      | some ogr =>
          cases hl2 : dictLookup m.data.dersler (strUpper kodu) with
          | none => simp [applyOp, DataManager.not_gir, hl, hl2]; exact h
          | some d =>
              simp [applyOp, DataManager.not_gir, hl, hl2, DataManager.save]; exact h
  | karneOp no => exact h

/-- No operation ever removes a student key. -/
theorem ogr_isSome_applyOp (m : DataManager) (op : Op) (k : String)
    (h : (dictLookup m.data.ogrenciler k).isSome) :
    (dictLookup (applyOp m op).data.ogrenciler k).isSome := by
  cases op with
  | dersEkle kod ad kredi =>
      cases hl : dictLookup m.data.dersler (strUpper kod) with
      | some d => simp [applyOp, DataManager.ders_ekle, hl]; exact h
      | none => simp [applyOp, DataManager.ders_ekle, hl, DataManager.save]; exact h
  | ogrenciEkle no ad sinif =>
      cases hl : dictLookup m.data.ogrenciler no with
      | some d => simp [applyOp, DataManager.ogrenci_ekle, hl]; exact h
      | none =>
          simp [applyOp, DataManager.ogrenci_ekle, hl, DataManager.save]
          exact dictLookup_isSome_dictInsert _ _ _ _ h
  | notGir no kodu s1 s2 prj =>
      cases hl : dictLookup m.data.ogrenciler no with
      | none => simp [applyOp, DataManager.not_gir, hl]; exact h
      | some ogr =>
          cases hl2 : dictLookup m.data.dersler (strUpper kodu) with
          | none => simp [applyOp, DataManager.not_gir, hl, hl2]; exact h
          | some d =>
              simp [applyOp, DataManager.not_gir, hl, hl2, DataManager.save]
              exact dictLookup_isSome_dictInsert _ _ _ _ h
  | karneOp no => exact h

theorem ders_isSome_foldl (ops : List Op) (m : DataManager) (k : String)
    (h : (dictLookup m.data.dersler k).isSome) :
    (dictLookup (List.foldl applyOp m ops).data.dersler k).isSome := by
  induction ops generalizing m with
  | nil => exact h
  | cons op rest ih => exact ih _ (ders_isSome_applyOp m op k h)

theorem ogr_isSome_foldl (ops : List Op) (m : DataManager) (k : String)
    (h : (dictLookup m.data.ogrenciler k).isSome) :
    (dictLookup (List.foldl applyOp m ops).data.ogrenciler k).isSome := by
  induction ops generalizing m with
  | nil => exact h
  | cons op rest ih => exact ih _ (ogr_isSome_applyOp m op k h)

/-- A successful `ders_ekle` leaves the uppercased code present. -/
theorem ders_ekle_success (m : DataManager) (kod ad : String) (kredi : Int)
    (h : (m.ders_ekle kod ad kredi).1 = true) :
    (dictLookup (m.ders_ekle kod ad kredi).2.data.dersler (strUpper kod)).isSome := by
  cases hl : dictLookup m.data.dersler (strUpper kod) with
  | some d => exfalso; simp [DataManager.ders_ekle, hl] at h
  | none =>
      simp [DataManager.ders_ekle, hl, DataManager.save, dictLookup_dictInsert_self]

/-- `ders_ekle` on a present (uppercased) code fails without any change. -/
theorem ders_ekle_mem_fail (m : DataManager) (kod ad : String) (kredi : Int)
    (h : (dictLookup m.data.dersler (strUpper kod)).isSome) :
    m.ders_ekle kod ad kredi = (false, m) := by
  obtain ⟨d, hd⟩ := Option.isSome_iff_exists.mp h
  simp [DataManager.ders_ekle, hd]

/-- A successful `ogrenci_ekle` leaves the id present. -/
theorem ogrenci_ekle_success (m : DataManager) (no ad sinif : String)
    (h : (m.ogrenci_ekle no ad sinif).1 = true) :
    (dictLookup (m.ogrenci_ekle no ad sinif).2.data.ogrenciler no).isSome := by
  cases hl : dictLookup m.data.ogrenciler no with
  | some d => exfalso; simp [DataManager.ogrenci_ekle, hl] at h
  | none =>
      simp [DataManager.ogrenci_ekle, hl, DataManager.save, dictLookup_dictInsert_self]

/-- `ogrenci_ekle` on a present id fails without any change. -/
theorem ogrenci_ekle_mem_fail (m : DataManager) (no ad sinif : String)
    (h : (dictLookup m.data.ogrenciler no).isSome) :
    m.ogrenci_ekle no ad sinif = (false, m) := by
  obtain ⟨d, hd⟩ := Option.isSome_iff_exists.mp h
  simp [DataManager.ogrenci_ekle, hd]

/-- C5: once `ders_ekle` has succeeded for a code, any later `ders_ekle`
whose code is equal up to letter case — after any sequence of further
operations — returns `false` and returns the store unchanged; similarly a
later `ogrenci_ekle` with an id already added fails and leaves the store
unchanged. -/
theorem claim_C5_duplicate_rejection :
    (∀ (m : DataManager) (kod ad : String) (kredi : Int) (ops : List Op)
        (kod2 ad2 : String) (kredi2 : Int),
      (m.ders_ekle kod ad kredi).1 = true →
      strUpper kod2 = strUpper kod →
      (List.foldl applyOp (m.ders_ekle kod ad kredi).2 ops).ders_ekle kod2 ad2 kredi2 =
        (false, List.foldl applyOp (m.ders_ekle kod ad kredi).2 ops)) ∧
    (∀ (m : DataManager) (no ad sinif : String) (ops : List Op) (ad2 sinif2 : String),
      (m.ogrenci_ekle no ad sinif).1 = true →
      (List.foldl applyOp (m.ogrenci_ekle no ad sinif).2 ops).ogrenci_ekle no ad2 sinif2 =
        (false, List.foldl applyOp (m.ogrenci_ekle no ad sinif).2 ops)) := by
  constructor
  · intro m kod ad kredi ops kod2 ad2 kredi2 hsucc hcase
    apply ders_ekle_mem_fail
    rw [hcase]
    exact ders_isSome_foldl ops _ _ (ders_ekle_success m kod ad kredi hsucc)
  · intro m no ad sinif ops ad2 sinif2 hsucc
    apply ogrenci_ekle_mem_fail
    exact ogr_isSome_foldl ops _ _ (ogrenci_ekle_success m no ad sinif hsucc)

/-- Witness for C5: after adding course "mat101" to the empty store, adding
"Mat101" fails and changes nothing. -/
theorem claim_C5_duplicate_rejection_witness :
    (((DataManager.mk ⟨[], []⟩ none).ders_ekle "mat101" "Matematik" 1).2).ders_ekle
        "Mat101" "Matematik 2" 2 =
      (false, (((DataManager.mk ⟨[], []⟩ none).ders_ekle "mat101" "Matematik" 1).2)) := by
  have h := claim_C5_duplicate_rejection.1 (DataManager.mk ⟨[], []⟩ none)
    "mat101" "Matematik" 1 [] "Mat101" "Matematik 2" 2 rfl rfl
  exact h

-- ---------------------------------------------------------------------
-- Claim C6: missing references, fixed check order, no mutation
-- ---------------------------------------------------------------------

/-- C6: `not_gir` for an unknown student returns the student-not-found
status and the untouched store, whatever the course argument is; for a
known student and a course whose uppercased code is unknown it returns the
course-not-found status and the untouched store; `karne` for an unknown
student returns the absent value (not a report). -/
theorem claim_C6_missing_references :
    (∀ (m : DataManager) (no kodu : String) (s1 s2 prj : Option ℚ),
      dictLookup m.data.ogrenciler no = none →
      m.not_gir no kodu s1 s2 prj = ("Öğrenci bulunamadı.", m)) ∧
    (∀ (m : DataManager) (no kodu : String) (s1 s2 prj : Option ℚ) (ogr : OgrDict),
      dictLookup m.data.ogrenciler no = some ogr →
      dictLookup m.data.dersler (strUpper kodu) = none →
      m.not_gir no kodu s1 s2 prj = ("Ders bulunamadı.", m)) ∧
    (∀ (m : DataManager) (no : String),
      dictLookup m.data.ogrenciler no = none → m.karne no = Except.ok none) := by
  refine ⟨?_, ?_, ?_⟩
  · intro m no kodu s1 s2 prj h
    simp [DataManager.not_gir, h]
  · intro m no kodu s1 s2 prj ogr h h2
    simp [DataManager.not_gir, h, h2]
  · intro m no h
    simp [DataManager.karne, h]

/-- Witness for C6: with a course table containing "MAT101" but no
students, grade entry for student "9" fails with the student status (the
course existing makes no difference), and a report for "9" is absent. -/
theorem claim_C6_missing_references_witness :
    (DataManager.mk ⟨[], [("MAT101", ⟨"MAT101", "Matematik", 1⟩)]⟩ none).not_gir
        "9" "MAT101" (some 50) none none =
      ("Öğrenci bulunamadı.",
        DataManager.mk ⟨[], [("MAT101", ⟨"MAT101", "Matematik", 1⟩)]⟩ none) ∧
    (DataManager.mk ⟨[], [("MAT101", ⟨"MAT101", "Matematik", 1⟩)]⟩ none).karne "9" =
      Except.ok none :=
  ⟨claim_C6_missing_references.1 _ "9" "MAT101" (some 50) none none rfl,
   claim_C6_missing_references.2.2 _ "9" rfl⟩

-- ---------------------------------------------------------------------
-- Claim C8: a zero score/average renders as the dash
-- ---------------------------------------------------------------------

/-- C8: in the row and overall-average rendering, a stored score of `0`
produces the dash cell, identical to an absent score (`x or '-'` treats
`0.0` as falsy); a defined per-course average of `0` and a defined overall
average of `0` likewise render as the dash, not as a number.  The final
conjunct records that every cell of a report row is rendered through
exactly these `or`-dash helpers. -/
theorem claim_C8_zero_renders_dash :
    orDashQ (some 0) = "-" ∧
    orDashQ (some 0) = orDashQ none ∧
    genelLine (some 0) = "Genel Ortalama: -" ∧
    genelLine (some 0) = genelLine none ∧
    (∀ (k : String) (nk : NotKaydi), karneRow k nk =
      padRight 10 k ++ " " ++ padLeft 5 (orDashQ nk.sinav1) ++ " " ++
      padLeft 5 (orDashQ nk.sinav2) ++ " " ++ padLeft 5 (orDashQ nk.proje) ++ " " ++
      padLeft 6 (orDashQ nk.ortalama) ++ " " ++ padLeft 5 (orDashS nk.harf_notu)) :=
  ⟨rfl, rfl, rfl, rfl, fun _ _ => rfl⟩

-- ---------------------------------------------------------------------
-- Claim C10: course credit never influences any computed output
-- ---------------------------------------------------------------------

/-- Two stored courses equal except possibly in their `kredi` field. -/
def krediOnly (d1 d2 : Ders) : Prop := d1.kod = d2.kod ∧ d1.ad = d2.ad

/-- C10: two managers with identical students whose course tables differ
only in credit values produce identical reports for every student id (and
identical stored student data, hence identical record averages, letter
grades and overall averages, which are functions of the records alone). -/
theorem claim_C10_credit_noninterference (m1 m2 : DataManager)
    (hog : m1.data.ogrenciler = m2.data.ogrenciler)
    (hders : List.Forall₂ (fun p q => p.1 = q.1 ∧ krediOnly p.2 q.2)
      m1.data.dersler m2.data.dersler) :
    (∀ no, m1.karne no = m2.karne no) ∧
    (∀ no, dictLookup m1.data.ogrenciler no = dictLookup m2.data.ogrenciler no) := by
  constructor
  · intro no
    unfold DataManager.karne
    rw [hog]
  · intro no
    rw [hog]

/-- Witness for C10: changing a course's credit from 1 to 3 leaves the
report of a student graded in that course unchanged. -/
theorem claim_C10_credit_noninterference_witness :
    (DataManager.mk
      ⟨[("1", ⟨"1", "Ali", "9-A", [("MAT101", ⟨none, some 80, none, none⟩)]⟩)],
       [("MAT101", ⟨"MAT101", "Matematik", 1⟩)]⟩ none).karne "1" =
    (DataManager.mk
      ⟨[("1", ⟨"1", "Ali", "9-A", [("MAT101", ⟨none, some 80, none, none⟩)]⟩)],
       [("MAT101", ⟨"MAT101", "Matematik", 3⟩)]⟩ none).karne "1" :=
  (claim_C10_credit_noninterference _ _ rfl
    (List.Forall₂.cons ⟨rfl, rfl, rfl⟩ List.Forall₂.nil)).1 "1"

-- ---------------------------------------------------------------------
-- Claims C7 and C9: the report path raises for any student with records
-- ---------------------------------------------------------------------

/-- C7 (divergence evidence): `karne` never renders a row.  For the record
shape `not_gir` actually stores (no `"ders_kodu"` key), `NotKaydi(**d)` at
line 171 raises `TypeError`; if every stored record does carry the key,
line 177 (`ogr.genel_ortalama()`, where the `notlar` values are still
plain dicts) raises `AttributeError`.  Either way no report is returned
for a student with at least one grade record. -/
theorem claim_C7_report_crashes :
    (DataManager.mk
      ⟨[("1", ⟨"1", "Ali", "9-A", [("MAT101", ⟨none, some 80, none, none⟩)]⟩)],
       [("MAT101", ⟨"MAT101", "Matematik", 1⟩)]⟩ none).karne "1" =
      Except.error PyError.typeError ∧
    (DataManager.mk
      ⟨[("2", ⟨"2", "Ayşe", "9-B", [("MAT101", ⟨some "MAT101", some 80, none, none⟩)]⟩)],
       [("MAT101", ⟨"MAT101", "Matematik", 1⟩)]⟩ none).karne "2" =
      Except.error PyError.attributeError :=
  ⟨rfl, rfl⟩

/-- C9 (divergence evidence): `not_gir` with all three scores absent still
succeeds, stores an empty record dict and persists the document — but the
subsequent report for the student then raises `TypeError` (the stored
record has no `"ders_kodu"` key) instead of showing a row of dashes. -/
theorem claim_C9_all_absent_setgrade :
    ((DataManager.mk ⟨[("1", ⟨"1", "Ali", "9-A", []⟩)],
        [("MAT101", ⟨"MAT101", "Matematik", 1⟩)]⟩ none).not_gir
      "1" "mat101" none none none).1 = "Notlar güncellendi." ∧
    dictLookup ((DataManager.mk ⟨[("1", ⟨"1", "Ali", "9-A", []⟩)],
        [("MAT101", ⟨"MAT101", "Matematik", 1⟩)]⟩ none).not_gir
      "1" "mat101" none none none).2.data.ogrenciler "1" =
      some ⟨"1", "Ali", "9-A", [("MAT101", ⟨none, none, none, none⟩)]⟩ ∧
    ((DataManager.mk ⟨[("1", ⟨"1", "Ali", "9-A", []⟩)],
        [("MAT101", ⟨"MAT101", "Matematik", 1⟩)]⟩ none).not_gir
      "1" "mat101" none none none).2.file =
      some (dumpStore ((DataManager.mk ⟨[("1", ⟨"1", "Ali", "9-A", []⟩)],
        [("MAT101", ⟨"MAT101", "Matematik", 1⟩)]⟩ none).not_gir
      "1" "mat101" none none none).2.data) ∧
    ((DataManager.mk ⟨[("1", ⟨"1", "Ali", "9-A", []⟩)],
        [("MAT101", ⟨"MAT101", "Matematik", 1⟩)]⟩ none).not_gir
      "1" "mat101" none none none).2.karne "1" = Except.error PyError.typeError :=
  ⟨rfl, rfl, rfl, rfl⟩

-- ---------------------------------------------------------------------
-- JSON parsing (`json.load`, src/main.py lines 115-119)
-- ---------------------------------------------------------------------
-- `json.load` is modelled for the fragment the store actually persists:
-- objects, strings, ints and (non-exponent) floats, with the record
-- fields in the canonical order `_save` writes them.  Whitespace is
-- skipped everywhere, strings support the full escape set `json.dump`
-- can emit, and unknown escapes or raw control characters are rejected,
-- as `json.load` (strict mode) does.

/-- JSON insignificant whitespace. -/
def isWsChar (c : Char) : Bool := c = ' ' || c = '\n' || c = '\t' || c = '\r'

/-- Drop leading whitespace. -/
def skipWs : List Char → List Char
  | [] => []
  | c :: cs => if isWsChar c then skipWs cs else c :: cs

/-- Consume one expected character. -/
def expectChar (c : Char) : List Char → Option (List Char)
  | [] => none
  | c2 :: cs => if c2 = c then some cs else none

/-- Value of a hexadecimal digit character. -/
def hexVal (c : Char) : Option Nat :=
  if '0' ≤ c ∧ c ≤ '9' then some (c.toNat - 48)
  else if 'a' ≤ c ∧ c ≤ 'f' then some (c.toNat - 87)
  else if 'A' ≤ c ∧ c ≤ 'F' then some (c.toNat - 55)
  else none

/-- The value of four hex digits. -/
def hex4Val (h1 h2 h3 h4 : Char) : Option Nat :=
  match hexVal h1, hexVal h2, hexVal h3, hexVal h4 with
  | some a, some b, some c, some d => some (((a * 16 + b) * 16 + c) * 16 + d)
  | _, _, _, _ => none

/-- Prepend a character to the first component. -/
def consFst (c : Char) (p : List Char × List Char) : List Char × List Char :=
  (c :: p.1, p.2)

/-- String body after the opening quote: characters until the closing
quote, decoding escapes; unknown escapes and raw control characters are
rejected. -/
def parseStrBody : List Char → Option (List Char × List Char)
  | [] => none
  | c :: cs =>
    if c = '"' then some ([], cs)
    else if c = '\\' then
      match cs with
      | [] => none
      | e :: cs2 =>
        if e = '"' then (parseStrBody cs2).map (consFst '"')
        else if e = '\\' then (parseStrBody cs2).map (consFst '\\')
        else if e = '/' then (parseStrBody cs2).map (consFst '/')
        else if e = 'n' then (parseStrBody cs2).map (consFst '\n')
        else if e = 't' then (parseStrBody cs2).map (consFst '\t')
        else if e = 'r' then (parseStrBody cs2).map (consFst '\r')
        else if e = 'b' then (parseStrBody cs2).map (consFst (Char.ofNat 8))
        else if e = 'f' then (parseStrBody cs2).map (consFst (Char.ofNat 12))
        else if e = 'u' then
          match cs2 with
          | h1 :: h2 :: h3 :: h4 :: cs3 =>
            match hex4Val h1 h2 h3 h4 with
            | some n =>
                if Nat.isValidChar n then (parseStrBody cs3).map (consFst (Char.ofNat n))
                else none
            | none => none
          | _ => none
        else none
    else if c.toNat < 32 then none
    else (parseStrBody cs).map (consFst c)

/-- A quoted JSON string. -/
def parseStr (l : List Char) : Option (String × List Char) :=
  match l with
  | '"' :: cs => (parseStrBody cs).map (fun p => (String.mk p.1, p.2))
  | _ => none

/-- Value of a decimal digit character. -/
def digitValC (c : Char) : Nat := c.toNat - 48

/-- Longest leading run of decimal digits, as digit values. -/
def takeDigits : List Char → List Nat × List Char
  | [] => ([], [])
  | c :: cs =>
    if c.isDigit then
      let p := takeDigits cs
      (digitValC c :: p.1, p.2)
    else ([], c :: cs)

/-- Value of a big-endian digit list. -/
def decVal (ds : List Nat) : Nat := ds.foldl (fun a d => 10 * a + d) 0

/-- A JSON number: optional minus, integer digits, and an optional
fractional part; with a fraction it is a float, without one an int
(exponent notation is not modelled — `_save` never emits it). -/
def splitSign : List Char → Bool × List Char
  | '-' :: cs => (true, cs)
  | l => (false, l)

/-- A fractional part `.digits`, if present. -/
def takeFrac : List Char → Option (List Nat × List Char)
  | '.' :: rest2 =>
    match takeDigits rest2 with
    | ([], _) => none
    | (f0 :: fs, rest3) => some (f0 :: fs, rest3)
  | _ => none

def parseNumber (l : List Char) : Option (Leaf × List Char) :=
  let sp : Bool × List Char := splitSign l
  match takeDigits sp.2 with
  | ([], _) => none
  | (d0 :: ds, rest) =>
    match takeFrac rest with
    | some (fs, rest3) =>
        let ip : ℚ := (decVal (d0 :: ds) : ℚ)
        let fp : ℚ := (decVal fs : ℚ) / (10 : ℚ) ^ fs.length
        some (.f (if sp.1 then -(ip + fp) else ip + fp), rest3)
    | none =>
        some (.i (if sp.1 then -(decVal (d0 :: ds) : Int) else (decVal (d0 :: ds) : Int)), rest)

/-- A JSON leaf: a string or a number. -/
def parseLeaf (l : List Char) : Option (Leaf × List Char) :=
  match l with
  | '"' :: _ => (parseStr l).map (fun p => (Leaf.s p.1, p.2))
  | _ => parseNumber l

/-- The `"key": value` fields of a non-empty object, after its opening
brace and leading whitespace;`fuel` bounds the number of fields. -/
def parseFields {α : Type} (pv : List Char → Option (α × List Char)) :
    Nat → List Char → Option (List (String × α) × List Char)
  | 0, _ => none
  | fuel + 1, l =>
    match parseStr (skipWs l) with
    | none => none
    | some (k, l1) =>
      match expectChar ':' (skipWs l1) with
      | none => none
      | some l2 =>
        match pv (skipWs l2) with
        | none => none
        | some (v, l3) =>
          match skipWs l3 with
          | ',' :: l4 => (parseFields pv fuel l4).map (fun p => ((k, v) :: p.1, p.2))
          | '\x7d' :: l4 => some ([(k, v)], l4)
          | _ => none

/-- A JSON object with values read by `pv`. -/
def parseObjOf {α : Type} (pv : List Char → Option (α × List Char))
    (l : List Char) : Option (List (String × α) × List Char) :=
  match skipWs l with
  | '\x7b' :: l1 =>
    match skipWs l1 with
    | '\x7d' :: l2 => some ([], l2)
    | l2 => parseFields pv (l.length + 1) l2
  | _ => none

/-- `"key":` with a fixed expected key. -/
def parseKeyCol (key : String) (l : List Char) : Option (List Char) :=
  match parseStr (skipWs l) with
  | some (k, l1) => if k = key then expectChar ':' (skipWs l1) else none
  | none => none

/-- Rebuild a stored grade dict from parsed pairs; later duplicates
overwrite (Python dict-building keeps the last), unknown keys or
wrongly-typed values are rejected (the persisted document never has
them). -/
def nkFromPairs : List (String × Leaf) → NKDict → Option NKDict
  | [], acc => some acc
  | ("ders_kodu", .s k) :: r, acc => nkFromPairs r { acc with ders_kodu := some k }
  | ("sinav1", .f v) :: r, acc => nkFromPairs r { acc with sinav1 := some v }
  | ("sinav2", .f v) :: r, acc => nkFromPairs r { acc with sinav2 := some v }
  | ("proje", .f v) :: r, acc => nkFromPairs r { acc with proje := some v }
  | _, _ => none

/-- A stored grade dict. -/
def parseNK (l : List Char) : Option (NKDict × List Char) :=
  (parseObjOf parseLeaf l).bind fun p =>
    (nkFromPairs p.1 ⟨none, none, none, none⟩).map fun nk => (nk, p.2)

/-- Rebuild a stored course from its (canonically ordered) pairs. -/
def dersFromPairs : List (String × Leaf) → Option Ders
  | [("kod", .s kod), ("ad", .s ad), ("kredi", .i kredi)] => some ⟨kod, ad, kredi⟩
  | _ => none

/-- A stored course. -/
def parseDers (l : List Char) : Option (Ders × List Char) :=
  (parseObjOf parseLeaf l).bind fun p =>
    (dersFromPairs p.1).map fun d => (d, p.2)

/-- A stored student: the three string fields and the `notlar` object, in
the order `_save` writes them. -/
def parseOgr (l : List Char) : Option (OgrDict × List Char) :=
  match skipWs l with
  | '\x7b' :: l1 =>
    match parseKeyCol "no" l1 with
    | none => none
    | some l2 =>
      match parseStr (skipWs l2) with
      | none => none
      | some (no, l3) =>
        match expectChar ',' (skipWs l3) with
        | none => none
        | some l4 =>
          match parseKeyCol "ad" l4 with
          | none => none
          | some l5 =>
            match parseStr (skipWs l5) with
            | none => none
            | some (ad, l6) =>
              match expectChar ',' (skipWs l6) with
              | none => none
              | some l7 =>
                match parseKeyCol "sinif" l7 with
                | none => none
                | some l8 =>
                  match parseStr (skipWs l8) with
                  | none => none
                  | some (sinif, l9) =>
                    match expectChar ',' (skipWs l9) with
                    | none => none
                    | some l10 =>
                      match parseKeyCol "notlar" l10 with
                      | none => none
                      | some l11 =>
                        match parseObjOf parseNK l11 with
                        | none => none
                        | some (notlar, l12) =>
                          match expectChar '\x7d' (skipWs l12) with
                          | none => none
                          | some l13 => some (⟨no, ad, sinif, notlar⟩, l13)
  | _ => none

/-- The whole document: `{"ogrenciler": {...}, "dersler": {...}}`. -/
def parseStoreCs (l : List Char) : Option (StoreData × List Char) :=
  match skipWs l with
  | '\x7b' :: l1 =>
    match parseKeyCol "ogrenciler" l1 with
    | none => none
    | some l2 =>
      match parseObjOf parseOgr l2 with
      | none => none
      | some (ogs, l3) =>
        match expectChar ',' (skipWs l3) with
        | none => none
        | some l4 =>
          match parseKeyCol "dersler" l4 with
          | none => none
          | some l5 =>
            match parseObjOf parseDers l5 with
            | none => none
            | some (ds, l6) =>
              match expectChar '\x7d' (skipWs l6) with
              | none => none
              | some l7 => some (⟨ogs, ds⟩, l7)
  | _ => none

/-- `json.load` of a persisted document: the parse must consume the whole
text (up to trailing whitespace). -/
def parseStore (s : String) : Option StoreData :=
  match parseStoreCs s.data with
  | some (d, rest) => if (skipWs rest).isEmpty then some d else none
  | none => none

/-- `_load` (src/main.py lines 115-119): the default empty document when
no file exists, otherwise the parse of the persisted text. -/
def loadStore : Option String → Option StoreData
  | none => some ⟨[], []⟩
  | some s => parseStore s

-- ---------------------------------------------------------------------
-- Round-trip lemmas: whitespace and digits
-- ---------------------------------------------------------------------

theorem skipWs_cons_ws (c : Char) (h : isWsChar c = true) (l : List Char) :
    skipWs (c :: l) = skipWs l := by simp [skipWs, h]

theorem skipWs_cons_not (c : Char) (h : isWsChar c = false) (l : List Char) :
    skipWs (c :: l) = c :: l := by simp [skipWs, h]

theorem skipWs_spaces (n : Nat) (l : List Char) :
    skipWs (spaces n ++ l) = skipWs l := by
  induction n with
  | zero => rfl
  | succ k ih =>
      show skipWs ((' ' :: spaces k) ++ l) = skipWs l
      rw [List.cons_append, skipWs_cons_ws ' ' (by decide)]
      exact ih

theorem skipWs_idem (l : List Char) : skipWs (skipWs l) = skipWs l := by
  induction l with
  | nil => rfl
  | cons c cs ih =>
      cases h : isWsChar c
      · rw [skipWs_cons_not c h, skipWs_cons_not c h]
      · rw [skipWs_cons_ws c h]
        exact ih

theorem digChar_isDigit (d : Nat) (h : d < 10) : (digChar d).isDigit = true := by
  interval_cases d <;> rfl

theorem digitValC_digChar (d : Nat) (h : d < 10) : digitValC (digChar d) = d := by
  interval_cases d <;> rfl

theorem digChar_ne_minus (d : Nat) (h : d < 10) : digChar d ≠ '-' := by
  interval_cases d <;> decide

theorem digChar_ne_quote (d : Nat) (h : d < 10) : digChar d ≠ '"' := by
  interval_cases d <;> decide

theorem bigDigits_ne_nil (n : Nat) : bigDigits n ≠ [] := by
  unfold bigDigits
  split
  · simp
  · next h => simpa using Nat.digits_ne_nil_iff_ne_zero.mpr h

theorem bigDigits_lt (n : Nat) : ∀ d ∈ bigDigits n, d < 10 := by
  intro d hd
  unfold bigDigits at hd
  split at hd
  · simp at hd
    omega
  · rw [List.mem_reverse] at hd
    exact Nat.digits_lt_base (by norm_num) hd

theorem decVal_append (ds : List Nat) (d : Nat) :
    decVal (ds ++ [d]) = 10 * decVal ds + d := by
  unfold decVal
  rw [List.foldl_append]
  rfl

theorem decVal_reverse (L : List Nat) : decVal L.reverse = Nat.ofDigits 10 L := by
  induction L with
  | nil => rfl
  | cons d t ih =>
      rw [List.reverse_cons, decVal_append, ih, Nat.ofDigits_cons]
      ring

theorem decVal_bigDigits (n : Nat) : decVal (bigDigits n) = n := by
  unfold bigDigits
  split
  · next h => subst h; rfl
  · rw [decVal_reverse, Nat.ofDigits_digits]

theorem decVal_replicate_zero (m : Nat) (ds : List Nat) :
    decVal (List.replicate m 0 ++ ds) = decVal ds := by
  induction m with
  | zero => rfl
  | succ k ih =>
      rw [List.replicate_succ, List.cons_append]
      show decVal (0 :: (List.replicate k 0 ++ ds)) = decVal ds
      unfold decVal at *
      rw [List.foldl_cons]
      simpa using ih

theorem bigDigits_len_le (n k : Nat) (hk : 1 ≤ k) (h : n < 10 ^ k) :
    (bigDigits n).length ≤ k := by
  unfold bigDigits
  split
  · simpa using hk
  · next hn =>
      rw [List.length_reverse, Nat.digits_len 10 n (by norm_num) hn]
      have := (Nat.lt_pow_iff_log_lt (by norm_num) hn).mp h
      omega

/-- Text that cannot extend a digit run. -/
def noDigitStart : List Char → Prop
  | [] => True
  | c :: _ => c.isDigit = false

/-- Text that cannot extend a number literal. -/
def numBdry : List Char → Prop
  | [] => True
  | c :: _ => c.isDigit = false ∧ c ≠ '.'

theorem takeDigits_append (ds : List Nat) (hds : ∀ d ∈ ds, d < 10)
    (rest : List Char) (hrest : noDigitStart rest) :
    takeDigits (ds.map digChar ++ rest) = (ds, rest) := by
  induction ds with
  | nil =>
      cases rest with
      | nil => rfl
      | cons c cs =>
          have hc : c.isDigit = false := hrest
          simp [takeDigits, hc]
  | cons d ds ih =>
      have hd : d < 10 := hds d (by simp)
      have ih2 := ih (fun x hx => hds x (by simp [hx]))
      show takeDigits (digChar d :: (ds.map digChar ++ rest)) = _
      simp [takeDigits, digChar_isDigit d hd, digitValC_digChar d hd, ih2]

-- Reduction helpers for the literal-pattern parsers.

theorem splitSign_minus (cs : List Char) : splitSign ('-' :: cs) = (true, cs) := rfl

theorem splitSign_cons_ne (c : Char) (l : List Char) (h : c ≠ '-') :
    splitSign (c :: l) = (false, c :: l) := by
  unfold splitSign
  split
  · next cs heq => exact absurd (by injection heq) h
  · rfl

theorem takeFrac_cons_ne (c : Char) (l : List Char) (h : c ≠ '.') :
    takeFrac (c :: l) = none := by
  unfold takeFrac
  split
  · next rest2 heq => exact absurd (by injection heq) h
  · rfl

theorem takeDigits_none (rest : List Char) (h : noDigitStart rest) :
    takeDigits rest = ([], rest) := by
  cases rest with
  | nil => rfl
  | cons c cs =>
      have hc : c.isDigit = false := h
      simp [takeDigits, hc]

theorem noDigitStart_of_numBdry (rest : List Char) (h : numBdry rest) :
    noDigitStart rest := by
  cases rest with
  | nil => trivial
  | cons c cs => exact h.1

theorem takeFrac_of_numBdry (rest : List Char) (h : numBdry rest) :
    takeFrac rest = none := by
  cases rest with
  | nil => rfl
  | cons c cs => exact takeFrac_cons_ne c cs h.2

/-- Round trip for integer literals. -/
theorem parseNumber_int (n : Int) (rest : List Char) (hrest : numBdry rest) :
    parseNumber (intCs n ++ rest) = some (.i n, rest) := by
  have htake : takeDigits ((bigDigits n.natAbs).map digChar ++ rest) = (bigDigits n.natAbs, rest) :=
    takeDigits_append _ (bigDigits_lt _) rest (noDigitStart_of_numBdry rest hrest)
  obtain ⟨d0, ds, hbd⟩ := List.exists_cons_of_ne_nil (bigDigits_ne_nil n.natAbs)
  have hfrac : takeFrac rest = none := takeFrac_of_numBdry rest hrest
  rw [hbd] at htake
  by_cases hn : n < 0
  · have htext : intCs n ++ rest = '-' :: ((d0 :: ds).map digChar ++ rest) := by
      simp [intCs, natStr, hn, hbd]
    rw [htext]
    simp only [parseNumber, splitSign_minus, htake, hfrac]
    have hval : -((decVal (d0 :: ds) : ℤ)) = n := by
      rw [← hbd, decVal_bigDigits]
      omega
    rw [hval]
    simp
  · have hd0 : d0 < 10 := bigDigits_lt n.natAbs d0 (by rw [hbd]; simp)
    have htext : intCs n ++ rest = digChar d0 :: (ds.map digChar ++ rest) := by
      simp [intCs, natStr, hn, hbd]
    rw [htext]
    have hsp := splitSign_cons_ne (digChar d0) (ds.map digChar ++ rest) (digChar_ne_minus d0 hd0)
    have htake2 : takeDigits (digChar d0 :: (ds.map digChar ++ rest)) = (d0 :: ds, rest) := by
      have : digChar d0 :: (ds.map digChar ++ rest) = (d0 :: ds).map digChar ++ rest := by simp
      rw [this]
      exact htake
    simp only [parseNumber, hsp, htake2, hfrac]
    have hval : ((decVal (d0 :: ds) : ℤ)) = n := by
      rw [← hbd, decVal_bigDigits]
      omega
    rw [hval]
    simp

/-- A rational with a finite decimal expansion, witnessed by `decExp`.
Every Python float satisfies this (its denominator is a power of two). -/
def FinDec (q : ℚ) : Prop := 10 ^ decExp q.den % q.den = 0

instance (q : ℚ) : Decidable (FinDec q) :=
  inferInstanceAs (Decidable (_ = _))

/-- Splitting `|num| * (10^k / den)` at the decimal point recovers
`|num| / den` when `den ∣ 10^k`. -/
theorem float_parts (q : ℚ) (k : Nat) (hdvd : q.den ∣ 10 ^ k) :
    ((q.num.natAbs * (10 ^ k / q.den) / 10 ^ k : ℕ) : ℚ) +
      ((q.num.natAbs * (10 ^ k / q.den) % 10 ^ k : ℕ) : ℚ) / (10 : ℚ) ^ k
      = (q.num.natAbs : ℚ) / (q.den : ℚ) := by
  have h10 : (10 ^ k / q.den) * q.den = 10 ^ k := Nat.div_mul_cancel hdvd
  have hmod : 10 ^ k * (q.num.natAbs * (10 ^ k / q.den) / 10 ^ k) +
      q.num.natAbs * (10 ^ k / q.den) % 10 ^ k = q.num.natAbs * (10 ^ k / q.den) :=
    Nat.div_add_mod _ (10 ^ k)
  have hden0 : (q.den : ℚ) ≠ 0 := Nat.cast_ne_zero.mpr (Rat.den_ne_zero q)
  have hpow0 : (10 : ℚ) ^ k ≠ 0 := by positivity
  have cast1 : (10 : ℚ) ^ k * ((q.num.natAbs * (10 ^ k / q.den) / 10 ^ k : ℕ) : ℚ) +
      ((q.num.natAbs * (10 ^ k / q.den) % 10 ^ k : ℕ) : ℚ) =
      ((q.num.natAbs * (10 ^ k / q.den) : ℕ) : ℚ) := by
    exact_mod_cast hmod
  have cast2 : ((q.num.natAbs * (10 ^ k / q.den) : ℕ) : ℚ) * (q.den : ℚ) =
      (q.num.natAbs : ℚ) * (10 : ℚ) ^ k := by
    have hnat : q.num.natAbs * (10 ^ k / q.den) * q.den = q.num.natAbs * 10 ^ k := by
      rw [mul_assoc, h10]
    exact_mod_cast hnat
  field_simp
  linear_combination (q.den : ℚ) * cast1 + cast2

/-- The absolute value of `q` as the quotient of its parts. -/
theorem natAbs_div_den (q : ℚ) : ((q.num.natAbs : ℚ)) / (q.den : ℚ) = |q| := by
  rw [Int.cast_natAbs, Int.cast_abs,
      ← abs_of_nonneg (show (0 : ℚ) ≤ (q.den : ℚ) by positivity),
      ← abs_div, Rat.num_div_den]

/-- Round trip for a number of shape `sign digits . digits`. -/
theorem parseNumber_frac (neg : Bool) (m : Nat) (fs : List Nat) (hfs : fs ≠ [])
    (hfsd : ∀ d ∈ fs, d < 10) (rest : List Char) (hrest : noDigitStart rest) :
    parseNumber ((if neg then ['-'] else []) ++
        ((bigDigits m).map digChar ++ ('.' :: (fs.map digChar ++ rest)))) =
      some (.f (if neg then -((m : ℚ) + (decVal fs : ℚ) / (10 : ℚ) ^ fs.length)
                else (m : ℚ) + (decVal fs : ℚ) / (10 : ℚ) ^ fs.length), rest) := by
  obtain ⟨d0, ds, hbd⟩ := List.exists_cons_of_ne_nil (bigDigits_ne_nil m)
  obtain ⟨f0, fs2, hfseq⟩ := List.exists_cons_of_ne_nil hfs
  have htake : takeDigits ((bigDigits m).map digChar ++ ('.' :: (fs.map digChar ++ rest))) =
      (bigDigits m, '.' :: (fs.map digChar ++ rest)) :=
    takeDigits_append _ (bigDigits_lt _) _ (by exact rfl)
  have htakef : takeDigits (fs.map digChar ++ rest) = (fs, rest) :=
    takeDigits_append _ hfsd rest hrest
  have hfrac : takeFrac ('.' :: (fs.map digChar ++ rest)) = some (fs, rest) := by
    rw [hfseq] at htakef ⊢
    have htakef2 : takeDigits (digChar f0 :: (fs2.map digChar ++ rest)) = (f0 :: fs2, rest) := by
      simpa using htakef
    simp [takeFrac, htakef2]
  rw [hbd] at htake
  have hvals : decVal (d0 :: ds) = m := by rw [← hbd, decVal_bigDigits]
  cases neg with
  | true =>
      have htext : (if true then ['-'] else []) ++
          ((bigDigits m).map digChar ++ ('.' :: (fs.map digChar ++ rest))) =
          '-' :: ((d0 :: ds).map digChar ++ ('.' :: (fs.map digChar ++ rest))) := by
        simp [hbd]
      rw [htext]
      have htake2 : takeDigits ((d0 :: ds).map digChar ++ ('.' :: (fs.map digChar ++ rest))) =
          (d0 :: ds, '.' :: (fs.map digChar ++ rest)) := htake
      simp only [parseNumber, splitSign_minus, htake2, hfrac, hvals]
  | false =>
      have hd0 : d0 < 10 := bigDigits_lt m d0 (by rw [hbd]; simp)
      have htext : (if false then ['-'] else []) ++
          ((bigDigits m).map digChar ++ ('.' :: (fs.map digChar ++ rest))) =
          digChar d0 :: (ds.map digChar ++ ('.' :: (fs.map digChar ++ rest))) := by
        simp [hbd]
      rw [htext]
      have hsp := splitSign_cons_ne (digChar d0)
        (ds.map digChar ++ ('.' :: (fs.map digChar ++ rest))) (digChar_ne_minus d0 hd0)
      have htake2 : takeDigits (digChar d0 :: (ds.map digChar ++ ('.' :: (fs.map digChar ++ rest)))) =
          (d0 :: ds, '.' :: (fs.map digChar ++ rest)) := by
        have : digChar d0 :: (ds.map digChar ++ ('.' :: (fs.map digChar ++ rest))) =
            (d0 :: ds).map digChar ++ ('.' :: (fs.map digChar ++ rest)) := by simp
        rw [this]
        exact htake
      simp only [parseNumber, hsp, htake2, hfrac, hvals]

/-- Round trip for float literals with a finite decimal expansion. -/
theorem parseNumber_float (q : ℚ) (hq : FinDec q) (rest : List Char)
    (hrest : numBdry rest) :
    parseNumber (floatReprCs q ++ rest) = some (.f q, rest) := by
  have hnodig := noDigitStart_of_numBdry rest hrest
  have hdvd : q.den ∣ 10 ^ decExp q.den := Nat.dvd_of_mod_eq_zero hq
  have habs : ((q.num.natAbs : ℚ)) / (q.den : ℚ) = |q| := natAbs_div_den q
  by_cases hk0 : decExp q.den = 0
  · have hden1 : q.den = 1 := by
      rw [hk0, pow_zero] at hdvd
      exact Nat.dvd_one.mp hdvd
    have habs1 : ((q.num.natAbs : ℚ)) = |q| := by
      rw [← habs, hden1]
      simp
    rcases lt_or_le q 0 with hq0 | hq0
    · have htext : floatReprCs q ++ rest =
          (if true then ['-'] else []) ++
            ((bigDigits q.num.natAbs).map digChar ++ ('.' :: ([0].map digChar ++ rest))) := by
        simp [floatReprCs, hk0, natStr, hq0]
        rfl
      rw [htext, parseNumber_frac true q.num.natAbs [0] (by simp) (by simp) rest hnodig]
      norm_num [decVal, habs1, abs_of_neg hq0]
    · have hq0n : ¬ q < 0 := not_lt.mpr hq0
      have htext : floatReprCs q ++ rest =
          (if false then ['-'] else []) ++
            ((bigDigits q.num.natAbs).map digChar ++ ('.' :: ([0].map digChar ++ rest))) := by
        simp [floatReprCs, hk0, natStr, hq0n]
        rfl
      rw [htext, parseNumber_frac false q.num.natAbs [0] (by simp) (by simp) rest hnodig]
      norm_num [decVal, habs1, abs_of_nonneg hq0]
  · have hk1 : 1 ≤ decExp q.den := Nat.one_le_iff_ne_zero.mpr hk0
    have hpowpos : 0 < 10 ^ decExp q.den := by positivity
    have hFlt : q.num.natAbs * (10 ^ decExp q.den / q.den) % 10 ^ decExp q.den <
        10 ^ decExp q.den := Nat.mod_lt _ hpowpos
    have hlen : (bigDigits (q.num.natAbs * (10 ^ decExp q.den / q.den) %
        10 ^ decExp q.den)).length ≤ decExp q.den :=
      bigDigits_len_le _ _ hk1 hFlt
    have hfs_ne : List.replicate (decExp q.den - (bigDigits (q.num.natAbs *
        (10 ^ decExp q.den / q.den) % 10 ^ decExp q.den)).length) 0 ++
        bigDigits (q.num.natAbs * (10 ^ decExp q.den / q.den) % 10 ^ decExp q.den) ≠ [] := by
      intro h
      exact bigDigits_ne_nil _ (List.append_eq_nil.mp h).2
    have hfsd : ∀ d ∈ List.replicate (decExp q.den - (bigDigits (q.num.natAbs *
        (10 ^ decExp q.den / q.den) % 10 ^ decExp q.den)).length) 0 ++
        bigDigits (q.num.natAbs * (10 ^ decExp q.den / q.den) % 10 ^ decExp q.den), d < 10 := by
      intro d hd
      rcases List.mem_append.mp hd with hd | hd
      · have := List.eq_of_mem_replicate hd
        omega
      · exact bigDigits_lt _ d hd
    have hfslen : (List.replicate (decExp q.den - (bigDigits (q.num.natAbs *
        (10 ^ decExp q.den / q.den) % 10 ^ decExp q.den)).length) 0 ++
        bigDigits (q.num.natAbs * (10 ^ decExp q.den / q.den) % 10 ^ decExp q.den)).length =
        decExp q.den := by
      rw [List.length_append, List.length_replicate]
      omega
    have hfsval : decVal (List.replicate (decExp q.den - (bigDigits (q.num.natAbs *
        (10 ^ decExp q.den / q.den) % 10 ^ decExp q.den)).length) 0 ++
        bigDigits (q.num.natAbs * (10 ^ decExp q.den / q.den) % 10 ^ decExp q.den)) =
        q.num.natAbs * (10 ^ decExp q.den / q.den) % 10 ^ decExp q.den := by
      rw [decVal_replicate_zero, decVal_bigDigits]
    have hmap : (List.replicate (decExp q.den - (bigDigits (q.num.natAbs *
        (10 ^ decExp q.den / q.den) % 10 ^ decExp q.den)).length) 0 ++
        bigDigits (q.num.natAbs * (10 ^ decExp q.den / q.den) % 10 ^ decExp q.den)).map digChar =
        padZeroDigits (decExp q.den) (natStr (q.num.natAbs *
          (10 ^ decExp q.den / q.den) % 10 ^ decExp q.den)) := by
      simp [padZeroDigits, natStr, List.map_append, List.map_replicate]
      exact Or.inr rfl
    have hval : ((q.num.natAbs * (10 ^ decExp q.den / q.den) / 10 ^ decExp q.den : ℕ) : ℚ) +
        ((q.num.natAbs * (10 ^ decExp q.den / q.den) % 10 ^ decExp q.den : ℕ) : ℚ) /
          (10 : ℚ) ^ decExp q.den = |q| := by
      rw [float_parts q _ hdvd, habs]
    rcases lt_or_le q 0 with hq0 | hq0
    · have htext : floatReprCs q ++ rest =
          (if true then ['-'] else []) ++
            ((bigDigits (q.num.natAbs * (10 ^ decExp q.den / q.den) /
                10 ^ decExp q.den)).map digChar ++
              ('.' :: ((List.replicate (decExp q.den - (bigDigits (q.num.natAbs *
                  (10 ^ decExp q.den / q.den) % 10 ^ decExp q.den)).length) 0 ++
                bigDigits (q.num.natAbs * (10 ^ decExp q.den / q.den) %
                  10 ^ decExp q.den)).map digChar ++ rest))) := by
        rw [hmap]
        simp [floatReprCs, hk0, natStr, hq0]
      rw [htext, parseNumber_frac true _ _ hfs_ne hfsd rest hnodig, hfsval, hfslen]
      rw [hval, abs_of_neg hq0]
      simp
    · have hq0n : ¬ q < 0 := not_lt.mpr hq0
      have htext : floatReprCs q ++ rest =
          (if false then ['-'] else []) ++
            ((bigDigits (q.num.natAbs * (10 ^ decExp q.den / q.den) /
                10 ^ decExp q.den)).map digChar ++
              ('.' :: ((List.replicate (decExp q.den - (bigDigits (q.num.natAbs *
                  (10 ^ decExp q.den / q.den) % 10 ^ decExp q.den)).length) 0 ++
                bigDigits (q.num.natAbs * (10 ^ decExp q.den / q.den) %
                  10 ^ decExp q.den)).map digChar ++ rest))) := by
        rw [hmap]
        simp [floatReprCs, hk0, natStr, hq0n]
      rw [htext, parseNumber_frac false _ _ hfs_ne hfsd rest hnodig, hfsval, hfslen]
      rw [hval, abs_of_nonneg hq0]
      simp

theorem hexVal_hexDig (d : Nat) (h : d < 16) : hexVal (hexDig d) = some d := by
  interval_cases d <;> rfl

/-- Unescaping inverts escaping, one string body at a time. -/
theorem parseStrBody_rt (cs : List Char) (rest : List Char) :
    parseStrBody ((cs.map escChar).flatten ++ '"' :: rest) = some (cs, rest) := by
  induction cs with
  | nil =>
      show parseStrBody ('"' :: rest) = some ([], rest)
      rw [parseStrBody.eq_def]
      simp
  | cons c cs ih =>
      have hshape : ((c :: cs).map escChar).flatten ++ '"' :: rest =
          escChar c ++ ((cs.map escChar).flatten ++ '"' :: rest) := by
        simp
      rw [hshape]
      by_cases h1 : c = '"'
      · subst h1
        rw [show escChar '"' ++ ((cs.map escChar).flatten ++ '"' :: rest) =
          '\\' :: '"' :: ((cs.map escChar).flatten ++ '"' :: rest) from rfl]
        rw [parseStrBody.eq_def]
        simp [ih, consFst]
      · by_cases h2 : c = '\\'
        · subst h2
          rw [show escChar '\\' ++ ((cs.map escChar).flatten ++ '"' :: rest) =
            '\\' :: '\\' :: ((cs.map escChar).flatten ++ '"' :: rest) from rfl]
          rw [parseStrBody.eq_def]
          simp [ih, consFst]
        · by_cases h3 : c = '\n'
          · subst h3
            rw [show escChar '\n' ++ ((cs.map escChar).flatten ++ '"' :: rest) =
              '\\' :: 'n' :: ((cs.map escChar).flatten ++ '"' :: rest) from rfl]
            rw [parseStrBody.eq_def]
            simp [ih, consFst]
          · by_cases h4 : c = '\t'
            · subst h4
              rw [show escChar '\t' ++ ((cs.map escChar).flatten ++ '"' :: rest) =
                '\\' :: 't' :: ((cs.map escChar).flatten ++ '"' :: rest) from rfl]
              rw [parseStrBody.eq_def]
              simp [ih, consFst]
            · by_cases h5 : c = '\r'
              · subst h5
                rw [show escChar '\r' ++ ((cs.map escChar).flatten ++ '"' :: rest) =
                  '\\' :: 'r' :: ((cs.map escChar).flatten ++ '"' :: rest) from rfl]
                rw [parseStrBody.eq_def]
                simp [ih, consFst]
              · by_cases h6 : c = Char.ofNat 8
                · subst h6
                  rw [show escChar (Char.ofNat 8) ++ ((cs.map escChar).flatten ++ '"' :: rest) =
                    '\\' :: 'b' :: ((cs.map escChar).flatten ++ '"' :: rest) from rfl]
                  rw [parseStrBody.eq_def]
                  simp [ih, consFst]
                · by_cases h7 : c = Char.ofNat 12
                  · subst h7
                    rw [show escChar (Char.ofNat 12) ++ ((cs.map escChar).flatten ++ '"' :: rest) =
                      '\\' :: 'f' :: ((cs.map escChar).flatten ++ '"' :: rest) from rfl]
                    rw [parseStrBody.eq_def]
                    simp [ih, consFst]
                  · by_cases h8 : c.toNat < 32
                    · have hesc : escChar c =
                          ['\\', 'u', '0', '0', hexDig (c.toNat / 16), hexDig (c.toNat % 16)] := by
                        simp [escChar, h1, h2, h3, h4, h5, h6, h7, h8]
                      have hshape2 : escChar c ++ ((cs.map escChar).flatten ++ '"' :: rest) =
                          '\\' :: 'u' :: '0' :: '0' :: hexDig (c.toNat / 16) ::
                            hexDig (c.toNat % 16) :: ((cs.map escChar).flatten ++ '"' :: rest) := by
                        rw [hesc]
                        rfl
                      rw [hshape2]
                      have hhex : hex4Val '0' '0' (hexDig (c.toNat / 16)) (hexDig (c.toNat % 16)) =
                          some c.toNat := by
                        have hhi : hexVal (hexDig (c.toNat / 16)) = some (c.toNat / 16) :=
                          hexVal_hexDig _ (by omega)
                        have hlo : hexVal (hexDig (c.toNat % 16)) = some (c.toNat % 16) :=
                          hexVal_hexDig _ (by omega)
                        have h00 : hexVal '0' = some 0 := rfl
                        simp [hex4Val, hhi, hlo, h00]
                        omega
                      have hvalid : Nat.isValidChar c.toNat := Or.inl (by omega)
                      rw [parseStrBody.eq_def]
                      simp [hhex, hvalid, Char.ofNat_toNat, ih, consFst]
                    · have hesc : escChar c = [c] := by
                        simp [escChar, h1, h2, h3, h4, h5, h6, h7, h8]
                      have hshape2 : escChar c ++ ((cs.map escChar).flatten ++ '"' :: rest) =
                          c :: ((cs.map escChar).flatten ++ '"' :: rest) := by
                        rw [hesc]
                        rfl
                      rw [hshape2, parseStrBody.eq_def]
                      simp [h1, h2, h8, ih, consFst]

/-- Round trip for quoted string literals. -/
theorem parseStr_rt (s : String) (rest : List Char) :
    parseStr (dumpStrCs s ++ rest) = some (s, rest) := by
  have hshape : dumpStrCs s ++ rest = '"' :: ((s.data.map escChar).flatten ++ '"' :: rest) := by
    simp [dumpStrCs]
  rw [hshape]
  simp [parseStr, parseStrBody_rt]

theorem parseLeaf_cons_ne (c : Char) (l : List Char) (h : c ≠ '"') :
    parseLeaf (c :: l) = parseNumber (c :: l) := by
  unfold parseLeaf
  split
  · next heq => exact absurd (by injection heq) h
  · rfl

theorem digChar_not_ws (d : Nat) (h : d < 10) : isWsChar (digChar d) = false := by
  interval_cases d <;> rfl

/-- Validity of a leaf: floats must have a finite decimal expansion. -/
def LeafValid : Leaf → Prop
  | .f v => FinDec v
  | _ => True

theorem natStr_head (n : Nat) : ∃ d ds2, natStr n = digChar d :: ds2 ∧ d < 10 := by
  obtain ⟨d0, ds, hbd⟩ := List.exists_cons_of_ne_nil (bigDigits_ne_nil n)
  refine ⟨d0, ds.map digChar, by simp [natStr, hbd], bigDigits_lt n d0 (by rw [hbd]; simp)⟩

/-- Every dumped leaf starts with a quote, a minus or a digit. -/
theorem dumpLeaf_head (ind : Nat) (v : Leaf) :
    ∃ c t, dumpLeaf ind v = c :: t ∧ isWsChar c = false ∧
      (v = Leaf.s (match v with | .s s => s | _ => "") ↔ c = '"') := by
  cases v with
  | s str =>
      exact ⟨'"', (str.data.map escChar).flatten ++ ['"'],
        by simp [dumpLeaf, dumpStrCs], rfl, by simp⟩
  | i n =>
      by_cases hn : n < 0
      · refine ⟨'-', natStr n.natAbs, by simp [dumpLeaf, intCs, hn], rfl, by simp⟩
      · obtain ⟨d, ds2, hns, hd⟩ := natStr_head n.natAbs
        refine ⟨digChar d, ds2, by simp [dumpLeaf, intCs, hn, hns], digChar_not_ws d hd, ?_⟩
        simp [digChar_ne_quote d hd]
  | f q =>
      by_cases hq : q < 0
      · by_cases hk : decExp q.den = 0
        · refine ⟨'-', natStr q.num.natAbs ++ ['.', '0'],
            by simp [floatReprCs, hq, hk, dumpLeaf], rfl, by simp⟩
        · refine ⟨'-', natStr (q.num.natAbs * (10 ^ decExp q.den / q.den) / 10 ^ decExp q.den) ++
              '.' :: padZeroDigits (decExp q.den) (natStr (q.num.natAbs *
                (10 ^ decExp q.den / q.den) % 10 ^ decExp q.den)),
            by simp [floatReprCs, hq, hk, dumpLeaf], rfl, by simp⟩
      · by_cases hk : decExp q.den = 0
        · obtain ⟨d, ds2, hns, hd⟩ := natStr_head q.num.natAbs
          refine ⟨digChar d, ds2 ++ ['.', '0'],
            by simp [floatReprCs, hq, hk, dumpLeaf, hns], digChar_not_ws d hd, ?_⟩
          simp [digChar_ne_quote d hd]
        · obtain ⟨d, ds2, hns, hd⟩ :=
            natStr_head (q.num.natAbs * (10 ^ decExp q.den / q.den) / 10 ^ decExp q.den)
          refine ⟨digChar d, ds2 ++ '.' :: padZeroDigits (decExp q.den) (natStr (q.num.natAbs *
              (10 ^ decExp q.den / q.den) % 10 ^ decExp q.den)),
            by simp [floatReprCs, hq, hk, dumpLeaf, hns], digChar_not_ws d hd, ?_⟩
          simp [digChar_ne_quote d hd]

/-- Round trip for leaves, with leading whitespace skipped (the way object
parsing reaches a value). -/
theorem parseLeaf_rt (ind : Nat) (v : Leaf) (hv : LeafValid v) (rest : List Char)
    (hrest : numBdry rest) :
    parseLeaf (skipWs (dumpLeaf ind v ++ rest)) = some (v, rest) := by
  obtain ⟨c, t, hct, hws, hquote⟩ := dumpLeaf_head ind v
  have hskip : skipWs (dumpLeaf ind v ++ rest) = dumpLeaf ind v ++ rest := by
    rw [hct, List.cons_append, skipWs_cons_not c hws]
  rw [hskip]
  cases v with
  | s str =>
      have hshape : dumpLeaf ind (Leaf.s str) ++ rest =
          '"' :: ((str.data.map escChar).flatten ++ '"' :: rest) := by
        simp [dumpLeaf, dumpStrCs]
      have hps := parseStr_rt str rest
      have hps2 : parseStr ('"' :: ((str.data.map escChar).flatten ++ '"' :: rest)) =
          some (str, rest) := by
        rw [show ('"' :: ((str.data.map escChar).flatten ++ '"' :: rest) : List Char) =
          dumpStrCs str ++ rest by simp [dumpStrCs]]
        exact hps
      rw [hshape]
      rw [show parseLeaf ('"' :: ((str.data.map escChar).flatten ++ '"' :: rest)) =
        (parseStr ('"' :: ((str.data.map escChar).flatten ++ '"' :: rest))).map
          (fun p => (Leaf.s p.1, p.2)) from rfl, hps2]
      rfl
  | i n =>
      have hcq : c ≠ '"' := by
        intro hc
        simp [hc] at hquote
      have hshape : dumpLeaf ind (Leaf.i n) ++ rest = c :: (t ++ rest) := by
        rw [hct]
        rfl
      rw [hshape, parseLeaf_cons_ne c _ hcq, ← hshape]
      exact parseNumber_int n rest hrest
  | f q =>
      have hcq : c ≠ '"' := by
        intro hc
        simp [hc] at hquote
      have hshape : dumpLeaf ind (Leaf.f q) ++ rest = c :: (t ++ rest) := by
        rw [hct]
        rfl
      rw [hshape, parseLeaf_cons_ne c _ hcq, ← hshape]
      exact parseNumber_float q hv rest hrest

theorem skipWs_all_ws (wsp : List Char) (h : ∀ c ∈ wsp, isWsChar c = true)
    (l : List Char) : skipWs (wsp ++ l) = skipWs l := by
  induction wsp with
  | nil => rfl
  | cons c cs ih =>
      rw [List.cons_append, skipWs_cons_ws c (h c (by simp))]
      exact ih (fun c2 hc2 => h c2 (by simp [hc2]))

theorem parseFields_skipWs {α : Type} (pv : List Char → Option (α × List Char))
    (fuel : Nat) (l : List Char) :
    parseFields pv fuel (skipWs l) = parseFields pv fuel l := by
  cases fuel with
  | zero => rfl
  | succ f =>
      simp only [parseFields, skipWs_idem]

theorem parseFields_congr_ws {α : Type} (pv : List Char → Option (α × List Char))
    (fuel : Nat) (x y : List Char) (h : skipWs x = skipWs y) :
    parseFields pv fuel x = parseFields pv fuel y := by
  rw [← parseFields_skipWs pv fuel x, h, parseFields_skipWs]

theorem skipWs_dumpStr (k : String) (x : List Char) :
    skipWs (dumpStrCs k ++ x) = dumpStrCs k ++ x := by
  rw [show dumpStrCs k ++ x = '"' :: ((k.data.map escChar).flatten ++ '"' :: x) by
    simp [dumpStrCs]]
  exact skipWs_cons_not '"' rfl _

theorem dumpFields_len {α : Type} (dv : Nat → α → List Char) (ind : Nat)
    (l : List (String × α)) : l.length ≤ (dumpFields dv ind l).length := by
  induction l with
  | nil => simp [dumpFields]
  | cons kv l2 ih =>
      obtain ⟨k, v⟩ := kv
      cases l2 with
      | nil =>
          simp [dumpFields, dumpStrCs, spaces]
          omega
      | cons p l3 =>
          simp [dumpFields, dumpStrCs, spaces] at ih ⊢
          omega

/-- Round trip for the field list of a non-empty object, terminated by the
newline + indentation + closing brace the dump emits. -/
theorem parseFields_rt {α : Type} (pv : List Char → Option (α × List Char))
    (dv : Nat → α → List Char) (P : α → Prop)
    (hval : ∀ (ind : Nat) (v : α) (rest : List Char), P v → numBdry rest →
      pv (skipWs (dv ind v ++ rest)) = some (v, rest)) :
    ∀ (l : List (String × α)), l ≠ [] → (∀ p ∈ l, P p.2) →
    ∀ (fuel : Nat), l.length ≤ fuel →
    ∀ (ind j : Nat) (rest : List Char),
    parseFields pv fuel (dumpFields dv ind l ++ '\n' :: (spaces j ++ '\x7d' :: rest)) =
      some (l, rest) := by
  intro l
  induction l with
  | nil => intro h; exact absurd rfl h
  | cons kv l2 ih =>
      intro _ hP fuel hfuel ind j rest
      obtain ⟨k, v⟩ := kv
      cases fuel with
      | zero =>
          exfalso
          simp at hfuel
      | succ f =>
        have hPv : P v := hP (k, v) (by simp)
        cases l2 with
        | nil =>
            have hT : dumpFields dv ind [(k, v)] ++ '\n' :: (spaces j ++ '\x7d' :: rest) =
                spaces ind ++ (dumpStrCs k ++ (':' :: (' ' ::
                  (dv ind v ++ ('\n' :: (spaces j ++ '\x7d' :: rest)))))) := by
              simp [dumpFields]
            have h1 : skipWs (dumpFields dv ind [(k, v)] ++ '\n' :: (spaces j ++ '\x7d' :: rest)) =
                dumpStrCs k ++ (':' :: (' ' ::
                  (dv ind v ++ ('\n' :: (spaces j ++ '\x7d' :: rest))))) := by
              rw [hT, skipWs_spaces, skipWs_dumpStr]
            have h2 := parseStr_rt k
              (':' :: (' ' :: (dv ind v ++ ('\n' :: (spaces j ++ '\x7d' :: rest)))))
            have h3 : expectChar ':' (skipWs (':' :: (' ' ::
                (dv ind v ++ ('\n' :: (spaces j ++ '\x7d' :: rest)))))) =
                some (' ' :: (dv ind v ++ ('\n' :: (spaces j ++ '\x7d' :: rest)))) := by
              rw [skipWs_cons_not ':' rfl]
              simp [expectChar]
            have h4 : pv (skipWs (' ' :: (dv ind v ++ ('\n' :: (spaces j ++ '\x7d' :: rest))))) =
                some (v, '\n' :: (spaces j ++ '\x7d' :: rest)) := by
              rw [skipWs_cons_ws ' ' rfl]
              exact hval ind v _ hPv (by exact ⟨rfl, by decide⟩)
            have h5 : skipWs ('\n' :: (spaces j ++ '\x7d' :: rest)) = '\x7d' :: rest := by
              rw [skipWs_cons_ws '\n' rfl, skipWs_spaces, skipWs_cons_not '\x7d' rfl]
            simp only [parseFields, h1, h2, h3, h4, h5]
        | cons p l3 =>
            have hT : dumpFields dv ind ((k, v) :: p :: l3) ++
                '\n' :: (spaces j ++ '\x7d' :: rest) =
                spaces ind ++ (dumpStrCs k ++ (':' :: (' ' :: (dv ind v ++ (',' :: '\n' ::
                  (dumpFields dv ind (p :: l3) ++ ('\n' :: (spaces j ++ '\x7d' :: rest)))))))) := by
              simp [dumpFields]
            have h1 : skipWs (dumpFields dv ind ((k, v) :: p :: l3) ++
                '\n' :: (spaces j ++ '\x7d' :: rest)) =
                dumpStrCs k ++ (':' :: (' ' :: (dv ind v ++ (',' :: '\n' ::
                  (dumpFields dv ind (p :: l3) ++ ('\n' :: (spaces j ++ '\x7d' :: rest))))))) := by
              rw [hT, skipWs_spaces, skipWs_dumpStr]
            have h2 := parseStr_rt k (':' :: (' ' :: (dv ind v ++ (',' :: '\n' ::
              (dumpFields dv ind (p :: l3) ++ ('\n' :: (spaces j ++ '\x7d' :: rest)))))))
            have h3 : expectChar ':' (skipWs (':' :: (' ' :: (dv ind v ++ (',' :: '\n' ::
                (dumpFields dv ind (p :: l3) ++ ('\n' :: (spaces j ++ '\x7d' :: rest)))))))) =
                some (' ' :: (dv ind v ++ (',' :: '\n' ::
                  (dumpFields dv ind (p :: l3) ++ ('\n' :: (spaces j ++ '\x7d' :: rest)))))) := by
              rw [skipWs_cons_not ':' rfl]
              simp [expectChar]
            have h4 : pv (skipWs (' ' :: (dv ind v ++ (',' :: '\n' ::
                (dumpFields dv ind (p :: l3) ++ ('\n' :: (spaces j ++ '\x7d' :: rest))))))) =
                some (v, ',' :: '\n' ::
                  (dumpFields dv ind (p :: l3) ++ ('\n' :: (spaces j ++ '\x7d' :: rest)))) := by
              rw [skipWs_cons_ws ' ' rfl]
              exact hval ind v _ hPv (by exact ⟨rfl, by decide⟩)
            have h5 : skipWs (',' :: '\n' ::
                (dumpFields dv ind (p :: l3) ++ ('\n' :: (spaces j ++ '\x7d' :: rest)))) =
                ',' :: '\n' ::
                  (dumpFields dv ind (p :: l3) ++ ('\n' :: (spaces j ++ '\x7d' :: rest))) :=
              skipWs_cons_not ',' rfl _
            have h6 : parseFields pv f ('\n' ::
                (dumpFields dv ind (p :: l3) ++ ('\n' :: (spaces j ++ '\x7d' :: rest)))) =
                some (p :: l3, rest) := by
              rw [parseFields_congr_ws pv f _
                (dumpFields dv ind (p :: l3) ++ ('\n' :: (spaces j ++ '\x7d' :: rest)))
                (skipWs_cons_ws '\n' rfl _)]
              exact ih (by simp) (fun x hx => hP x (by simp [hx])) f (by simp at hfuel ⊢; omega)
                ind j rest
            simp only [parseFields, h1, h2, h3, h4, h5, h6]
            rfl

theorem skipWs_dumpFields_cons {α : Type} (dv : Nat → α → List Char) (ind : Nat)
    (kv : String × α) (l2 : List (String × α)) (Z : List Char) :
    ∃ t, skipWs (dumpFields dv ind (kv :: l2) ++ Z) = '"' :: t := by
  obtain ⟨k, v⟩ := kv
  have hds : ∀ W : List Char, dumpStrCs k ++ W =
      '"' :: ((k.data.map escChar).flatten ++ ('"' :: W)) := by
    intro W
    simp [dumpStrCs]
  cases l2 with
  | nil =>
      refine ⟨(k.data.map escChar).flatten ++ ('"' :: ((':' :: ' ' :: dv ind v) ++ Z)), ?_⟩
      rw [show dumpFields dv ind [(k, v)] ++ Z =
        spaces ind ++ (dumpStrCs k ++ ((':' :: ' ' :: dv ind v) ++ Z)) by simp [dumpFields]]
      rw [skipWs_spaces, hds]
      exact skipWs_cons_not '"' rfl _
  | cons p l3 =>
      refine ⟨(k.data.map escChar).flatten ++ ('"' :: ((':' :: ' ' :: (dv ind v ++
        (',' :: '\n' :: dumpFields dv ind (p :: l3)))) ++ Z)), ?_⟩
      rw [show dumpFields dv ind ((k, v) :: p :: l3) ++ Z =
        spaces ind ++ (dumpStrCs k ++ ((':' :: ' ' :: (dv ind v ++
          (',' :: '\n' :: dumpFields dv ind (p :: l3)))) ++ Z)) by simp [dumpFields]]
      rw [skipWs_spaces, hds]
      exact skipWs_cons_not '"' rfl _

/-- Round trip for a whole dumped object, allowing any whitespace prefix in
front of the opening brace. -/
theorem parseObjOf_rt {α : Type} (pv : List Char → Option (α × List Char))
    (dv : Nat → α → List Char) (P : α → Prop)
    (hval : ∀ (ind : Nat) (v : α) (rest : List Char), P v → numBdry rest →
      pv (skipWs (dv ind v ++ rest)) = some (v, rest))
    (l : List (String × α)) (hP : ∀ p ∈ l, P p.2) (ind : Nat)
    (wsp : List Char) (hws : ∀ c ∈ wsp, isWsChar c = true) (rest : List Char) :
    parseObjOf pv (wsp ++ (dumpObjOf dv ind l ++ rest)) = some (l, rest) := by
  cases l with
  | nil =>
      have h0 : skipWs (wsp ++ (dumpObjOf dv ind ([] : List (String × α)) ++ rest)) =
          '\x7b' :: ('\x7d' :: rest) := by
        rw [skipWs_all_ws wsp hws]
        rw [show dumpObjOf dv ind ([] : List (String × α)) ++ rest =
          '\x7b' :: ('\x7d' :: rest) by simp [dumpObjOf]]
        exact skipWs_cons_not '\x7b' rfl _
      simp only [parseObjOf, h0, skipWs_cons_not '\x7d' rfl]
  | cons kv l2 =>
      have hT : dumpObjOf dv ind (kv :: l2) ++ rest =
          '\x7b' :: ('\n' :: (dumpFields dv (ind + 2) (kv :: l2) ++
            '\n' :: (spaces ind ++ '\x7d' :: rest))) := by
        simp [dumpObjOf]
      have h0 : skipWs (wsp ++ (dumpObjOf dv ind (kv :: l2) ++ rest)) =
          '\x7b' :: ('\n' :: (dumpFields dv (ind + 2) (kv :: l2) ++
            '\n' :: (spaces ind ++ '\x7d' :: rest))) := by
        rw [skipWs_all_ws wsp hws, hT]
        exact skipWs_cons_not '\x7b' rfl _
      obtain ⟨t, ht⟩ := skipWs_dumpFields_cons dv (ind + 2) kv l2
        ('\n' :: (spaces ind ++ '\x7d' :: rest))
      have h1 : skipWs ('\n' :: (dumpFields dv (ind + 2) (kv :: l2) ++
          '\n' :: (spaces ind ++ '\x7d' :: rest))) = '"' :: t := by
        rw [skipWs_cons_ws '\n' rfl]
        exact ht
      have h2 : parseFields pv
          ((wsp ++ (dumpObjOf dv ind (kv :: l2) ++ rest)).length + 1) ('"' :: t) =
          some (kv :: l2, rest) := by
        rw [← h1, parseFields_skipWs,
          parseFields_congr_ws pv _ _
            (dumpFields dv (ind + 2) (kv :: l2) ++ '\n' :: (spaces ind ++ '\x7d' :: rest))
            (skipWs_cons_ws '\n' rfl _)]
        refine parseFields_rt pv dv P hval (kv :: l2) (by simp) hP _ ?_ (ind + 2) ind rest
        have hlen := dumpFields_len dv (ind + 2) (kv :: l2)
        rw [hT]
        simp [List.length_append, spaces] at hlen ⊢
        omega
      simp only [parseObjOf, h0, h1, h2]
      split
      next l3 heq => simp at heq
      next => exact h2

theorem nkFromPairs_nkPairs (nk : NKDict) :
    nkFromPairs (nkPairs nk) ⟨none, none, none, none⟩ = some nk := by
  obtain ⟨dk, s1, s2, pj⟩ := nk
  cases dk <;> cases s1 <;> cases s2 <;> cases pj <;> rfl

/-- Validity of a stored grade dict: each present float has a finite
decimal expansion (every Python float does). -/
def NKValid (nk : NKDict) : Prop :=
  (∀ v, nk.sinav1 = some v → FinDec v) ∧ (∀ v, nk.sinav2 = some v → FinDec v) ∧
  (∀ v, nk.proje = some v → FinDec v)

theorem nkPairs_valid (nk : NKDict) (h : NKValid nk) :
    ∀ p ∈ nkPairs nk, LeafValid p.2 := by
  obtain ⟨h1, h2, h3⟩ := h
  intro p hp
  simp only [nkPairs, List.mem_append] at hp
  rcases hp with ((hp | hp) | hp) | hp
  · cases hdk : nk.ders_kodu with
    | none => rw [hdk] at hp; simp at hp
    | some k =>
        rw [hdk] at hp
        simp at hp
        rw [hp]
        trivial
  · cases hs1 : nk.sinav1 with
    | none => rw [hs1] at hp; simp at hp
    | some v =>
        rw [hs1] at hp
        simp at hp
        rw [hp]
        exact h1 v hs1
  · cases hs2 : nk.sinav2 with
    | none => rw [hs2] at hp; simp at hp
    | some v =>
        rw [hs2] at hp
        simp at hp
        rw [hp]
        exact h2 v hs2
  · cases hpj : nk.proje with
    | none => rw [hpj] at hp; simp at hp
    | some v =>
        rw [hpj] at hp
        simp at hp
        rw [hp]
        exact h3 v hpj

theorem dumpObjOf_head {α : Type} (dv : Nat → α → List Char) (ind : Nat)
    (l : List (String × α)) : ∃ t, dumpObjOf dv ind l = '\x7b' :: t := by
  cases l with
  | nil => exact ⟨['\x7d'], rfl⟩
  | cons kv l2 => exact ⟨_, rfl⟩

theorem skipWs_dumpObjOf {α : Type} (dv : Nat → α → List Char) (ind : Nat)
    (l : List (String × α)) (rest : List Char) :
    skipWs (dumpObjOf dv ind l ++ rest) = dumpObjOf dv ind l ++ rest := by
  obtain ⟨t, ht⟩ := dumpObjOf_head dv ind l
  rw [ht, List.cons_append]
  exact skipWs_cons_not '\x7b' rfl _

/-- Round trip for a stored grade dict, in the object-value interface. -/
theorem parseNK_rt (ind : Nat) (nk : NKDict) (h : NKValid nk) (rest : List Char) :
    parseNK (skipWs (dumpNK ind nk ++ rest)) = some (nk, rest) := by
  have hobj := parseObjOf_rt parseLeaf dumpLeaf LeafValid
    (fun i v r hv hr => parseLeaf_rt i v hv r hr) (nkPairs nk)
    (nkPairs_valid nk h) ind [] (by simp) rest
  rw [List.nil_append] at hobj
  rw [show dumpNK ind nk = dumpObjOf dumpLeaf ind (nkPairs nk) from rfl,
    skipWs_dumpObjOf]
  simp only [parseNK, hobj]
  simp [nkFromPairs_nkPairs]

/-- Round trip for a stored course, in the object-value interface. -/
theorem parseDers_rt (ind : Nat) (d : Ders) (rest : List Char) :
    parseDers (skipWs (dumpDers ind d ++ rest)) = some (d, rest) := by
  have hobj := parseObjOf_rt parseLeaf dumpLeaf LeafValid
    (fun i v r hv hr => parseLeaf_rt i v hv r hr)
    [("kod", Leaf.s d.kod), ("ad", Leaf.s d.ad), ("kredi", Leaf.i d.kredi)]
    (by
      intro p hp
      simp at hp
      rcases hp with rfl | rfl | rfl <;> trivial) ind [] (by simp) rest
  rw [List.nil_append] at hobj
  rw [show dumpDers ind d =
    dumpObjOf dumpLeaf ind
      [("kod", Leaf.s d.kod), ("ad", Leaf.s d.ad), ("kredi", Leaf.i d.kredi)] from rfl,
    skipWs_dumpObjOf]
  simp only [parseDers, hobj]
  simp
  rfl

theorem parseKeyCol_step (key : String) (n : Nat) (X : List Char) :
    parseKeyCol key ('\n' :: (spaces n ++ (dumpStrCs key ++ (':' :: X)))) = some X := by
  have h1 : skipWs ('\n' :: (spaces n ++ (dumpStrCs key ++ (':' :: X)))) =
      dumpStrCs key ++ (':' :: X) := by
    rw [skipWs_cons_ws '\n' rfl, skipWs_spaces, skipWs_dumpStr]
  have h2 := parseStr_rt key (':' :: X)
  simp only [parseKeyCol, h1, h2]
  simp [skipWs_cons_not ':' rfl, expectChar]

theorem parseStr_sp_step (s : String) (Z : List Char) :
    parseStr (skipWs (' ' :: (dumpStrCs s ++ Z))) = some (s, Z) := by
  rw [skipWs_cons_ws ' ' rfl, skipWs_dumpStr]
  exact parseStr_rt s Z

theorem expectChar_comma_step (Z : List Char) :
    expectChar ',' (skipWs (',' :: Z)) = some Z := by
  rw [skipWs_cons_not ',' rfl]
  rfl

theorem expectChar_close_step (n : Nat) (Z : List Char) :
    expectChar '\x7d' (skipWs ('\n' :: (spaces n ++ ('\x7d' :: Z)))) = some Z := by
  rw [skipWs_cons_ws '\n' rfl, skipWs_spaces, skipWs_cons_not '\x7d' rfl]
  rfl

/-- Validity of a stored student: every grade dict is valid. -/
def OgrValid (og : OgrDict) : Prop := ∀ p ∈ og.notlar, NKValid p.2

/-- Round trip for a stored student, in the object-value interface. -/
theorem parseOgr_rt (ind : Nat) (og : OgrDict) (h : OgrValid og) (rest : List Char) :
    parseOgr (skipWs (dumpOgr ind og ++ rest)) = some (og, rest) := by
  have hA : skipWs (dumpOgr ind og ++ rest) =
      '\x7b' :: ('\n' :: (spaces (ind + 2) ++ (dumpStrCs "no" ++ (':' :: (' ' :: (dumpStrCs og.no ++ (',' :: ('\n' :: (spaces (ind + 2) ++ (dumpStrCs "ad" ++ (':' :: (' ' :: (dumpStrCs og.ad ++ (',' :: ('\n' :: (spaces (ind + 2) ++ (dumpStrCs "sinif" ++ (':' :: (' ' :: (dumpStrCs og.sinif ++ (',' :: ('\n' :: (spaces (ind + 2) ++ (dumpStrCs "notlar" ++ (':' :: (' ' :: (dumpObjOf dumpNK (ind + 2) og.notlar ++ ('\n' :: (spaces ind ++ ('\x7d' :: rest)))))))))))))))))))))))))))))) := by
    rw [show dumpOgr ind og ++ rest =
      '\x7b' :: ('\n' :: (spaces (ind + 2) ++ (dumpStrCs "no" ++ (':' :: (' ' :: (dumpStrCs og.no ++ (',' :: ('\n' :: (spaces (ind + 2) ++ (dumpStrCs "ad" ++ (':' :: (' ' :: (dumpStrCs og.ad ++ (',' :: ('\n' :: (spaces (ind + 2) ++ (dumpStrCs "sinif" ++ (':' :: (' ' :: (dumpStrCs og.sinif ++ (',' :: ('\n' :: (spaces (ind + 2) ++ (dumpStrCs "notlar" ++ (':' :: (' ' :: (dumpObjOf dumpNK (ind + 2) og.notlar ++ ('\n' :: (spaces ind ++ ('\x7d' :: rest))))))))))))))))))))))))))))))
      by simp [dumpOgr]]
    exact skipWs_cons_not '\x7b' rfl _
  have hnot := parseObjOf_rt parseNK dumpNK NKValid
    (fun i v r hv _ => parseNK_rt i v hv r) og.notlar h (ind + 2) [' ']
    (by decide) ('\n' :: (spaces ind ++ ('\x7d' :: rest)))
  rw [List.singleton_append] at hnot
  rw [hA]
  simp only [parseOgr, skipWs_cons_not '\x7b' rfl, parseKeyCol_step, parseStr_sp_step,
    expectChar_comma_step, hnot, expectChar_close_step]

/-- Validity of a whole document: every stored grade dict of every student
has finite-decimal floats (every value Python writes does). -/
def ValidStore (D : StoreData) : Prop := ∀ p ∈ D.ogrenciler, OgrValid p.2

/-- Round trip for the serialised document text. -/
theorem parseStoreCs_rt (D : StoreData) (h : ValidStore D) (rest : List Char) :
    parseStoreCs (dumpStoreCs D ++ rest) = some (D, rest) := by
  have hog := parseObjOf_rt parseOgr dumpOgr OgrValid
    (fun i v r hv _ => parseOgr_rt i v hv r) D.ogrenciler h 2 [' ']
    (by decide) (',' :: ('\n' :: (spaces 2 ++ (dumpStrCs "dersler" ++ (':' :: (' ' ::
      (dumpObjOf dumpDers 2 D.dersler ++ ('\n' :: ('\x7d' :: rest)))))))))
  rw [List.singleton_append] at hog
  have hds := parseObjOf_rt parseDers dumpDers (fun _ => True)
    (fun i v r _ _ => parseDers_rt i v r) D.dersler (fun p hp => trivial) 2 [' ']
    (by decide) ('\n' :: ('\x7d' :: rest))
  rw [List.singleton_append] at hds
  have hcl : expectChar '\x7d' (skipWs ('\n' :: ('\x7d' :: rest))) = some rest := by
    rw [skipWs_cons_ws '\n' rfl, skipWs_cons_not '\x7d' rfl]
    rfl
  rw [show dumpStoreCs D ++ rest =
    '\x7b' :: ('\n' :: (spaces 2 ++ (dumpStrCs "ogrenciler" ++ (':' :: (' ' :: (dumpObjOf dumpOgr 2 D.ogrenciler ++ (',' :: ('\n' :: (spaces 2 ++ (dumpStrCs "dersler" ++ (':' :: (' ' :: (dumpObjOf dumpDers 2 D.dersler ++ ('\n' :: ('\x7d' :: rest)))))))))))))))
    by simp [dumpStoreCs]]
  simp only [parseStoreCs, skipWs_cons_not '\x7b' rfl, parseKeyCol_step, hog,
    expectChar_comma_step, hds, hcl]

/-- `json.load` after `json.dump` returns the same document. -/
theorem parseStore_dumpStore (D : StoreData) (h : ValidStore D) :
    parseStore (dumpStore D) = some D := by
  have h1 := parseStoreCs_rt D h []
  rw [List.append_nil] at h1
  simp only [parseStore]
  rw [show (dumpStore D).data = dumpStoreCs D from rfl, h1]
  rfl

/-- C4: persistence round-trip — for every valid store document `D`
(course and student maps, grade records with any subset of the three
score fields present, all floats finite-decimal as Python writes them),
loading the text that `_save` just wrote returns exactly `D`:
`load(save(D)) == D`. -/
theorem claim_C4_roundtrip (m : DataManager) (h : ValidStore m.data) :
    loadStore (DataManager.save m).file = some m.data := by
  exact parseStore_dumpStore m.data h

/-- A concrete document exercising C4: one student with one
partially-filled grade record and one course. -/
def sampleStore : StoreData :=
  ⟨[("1", ⟨"1", "Ali Veli", "10-A",
      [("MAT101", ⟨none, some 80, some 90, none⟩)]⟩)],
   [("MAT101", ⟨"MAT101", "Matematik", 3⟩)]⟩

theorem claim_C4_roundtrip_witness :
    ValidStore sampleStore ∧
      loadStore (DataManager.save ⟨sampleStore, none⟩).file = some sampleStore := by
  have h80 : FinDec (80 : ℚ) := by simp [FinDec, Rat.den_ofNat, Nat.mod_one]
  have h90 : FinDec (90 : ℚ) := by simp [FinDec, Rat.den_ofNat, Nat.mod_one]
  have hv : ValidStore sampleStore := by
    intro p hp
    simp only [sampleStore, List.mem_singleton] at hp
    subst hp
    intro q hq
    simp only [List.mem_singleton] at hq
    subst hq
    refine ⟨?_, ?_, ?_⟩
    · intro v hv2
      simp at hv2
      subst hv2
      exact h80
    · intro v hv2
      simp at hv2
      subst hv2
      exact h90
    · intro v hv2
      simp at hv2
  exact ⟨hv, claim_C4_roundtrip ⟨sampleStore, none⟩ hv⟩
